import Mathlib

/-!
Verification development for the fire-haze pipeline.

The source files `src/data.py`, `src/geo.py`, `src/ml.py` and `app.py` operate
on pandas data frames.  A frame is embedded as a `Table`: an explicit list of
column names together with rows given as association lists from column name to
`Cell`.  A cell is null (NaN/NaT), a rational number (numeric dtypes), a string
(object dtype), or a timestamp (datetime64, kept as calendar components).
Python exceptions are modelled with `Option`/`Except`: a `none`/`.error` result
stands for an exception escaping the modelled operation.
-/

inductive Cell : Type
  | null : Cell
  | num (q : ℚ) : Cell
  | str (s : String) : Cell
  | dt (y m d hh mi : ℕ) : Cell
deriving DecidableEq, Repr

abbrev Row : Type := List (String × Cell)

structure Table : Type where
  cols : List String
  rows : List Row
deriving DecidableEq, Repr

def emptyTable : Table := { cols := [], rows := [] }

/-- Reading one cell of a row; a column that is absent from the row reads as
null (in pandas a column present in the frame is present in every row, so
under `Table.WF` this default is never exercised for declared columns). -/
def getCell (r : Row) (c : String) : Cell := (List.lookup c r).getD Cell.null

/-- The list of cells of column `c`, in row order (a pandas `Series`). -/
def Table.col (t : Table) (c : String) : List Cell := t.rows.map (fun r => getCell r c)

/-- Well-formedness of the embedding: every row carries exactly the declared
columns, in declaration order.  Every frame produced by pandas satisfies it. -/
def Table.WF (t : Table) : Prop := ∀ r ∈ t.rows, r.map Prod.fst = t.cols

instance (t : Table) : Decidable t.WF :=
  decidable_of_iff (∀ r ∈ t.rows, r.map Prod.fst = t.cols) Iff.rfl

/-- Replace the value stored under key `c` wherever `c` already occurs. -/
def rowReplace : Row → String → Cell → Row
  | [], _, _ => []
  | p :: r, c, v => (if p.1 = c then (c, v) else p) :: rowReplace r c v

/-- Column assignment `df[c] = v` at row level: overwrite in place when the
key is present, append at the end otherwise. -/
def rowSet : Row → String → Cell → Row
  | [], c, v => [(c, v)]
  | p :: r, c, v => if p.1 = c then (c, v) :: rowReplace r c v else p :: rowSet r c v

/-- Column assignment `df[c] = f(df)` (`f` computed row-wise): appends the
column name when new, keeps the column order when overwriting. -/
def setColWith (t : Table) (c : String) (f : Row → Cell) : Table :=
  { cols := if c ∈ t.cols then t.cols else t.cols ++ [c],
    rows := t.rows.map (fun r => rowSet r c (f r)) }

/-!
Risk heuristic, from `add_simple_risk` in src/data.py (lines 95-112).
-/

/-- Indicator of one crossed threshold, the pandas `(series >= t).astype(int)`
for a single numeric entry. -/
def thInd (t x : ℚ) : ℚ := if t ≤ x then 1 else 0

/-- The raw threshold count of `add_simple_risk`. -/
def rawRisk (c f : ℚ) : ℚ := thInd 30 c + thInd 60 c + thInd 85 c + thInd 30 f + thInd 80 f

/-- Executable binary maximum on ℚ (kernel-reducible, unlike the lattice
`max` of Mathlib). -/
def pyMax (a b : ℚ) : ℚ := if a ≤ b then b else a

/-- Executable binary minimum on ℚ. -/
def pyMin (a b : ℚ) : ℚ := if a ≤ b then a else b

/-- The per-row heuristic risk: raw count clipped to [0, 5] (`.clip(0, 5)`). -/
def riskFun (c f : ℚ) : ℚ := pyMin (pyMax (rawRisk c f) 0) 5

/-- A cell that pandas numeric comparison accepts: a number or NaN. -/
def numOrNullB : Cell → Bool
  | Cell.num _ => true
  | Cell.null => true
  | _ => false

/-- Numeric value after `.fillna(0)`: NaN reads as 0, a missing column's
default null also reads as 0. -/
def numOr0 : Cell → ℚ
  | Cell.num q => q
  | _ => 0

/-- The two in-place insertions at the head of `add_simple_risk`:
`if "confidence" not in df.columns: df["confidence"] = 0` and likewise for
`"frp"`.  They mutate the caller's frame before the copy is taken. -/
def ensured (df : Table) : Table :=
  let d1 := if "confidence" ∈ df.cols then df else setColWith df "confidence" (fun _ => Cell.num 0)
  if "frp" ∈ d1.cols then d1 else setColWith d1 "frp" (fun _ => Cell.num 0)

/-- The per-row risk cell computed by `add_simple_risk` after `.fillna(0)`. -/
def riskCellOf (r : Row) : Cell :=
  Cell.num (riskFun (numOr0 (getCell r "confidence")) (numOr0 (getCell r "frp")))

/-- Embedding of `add_simple_risk` (src/data.py lines 95-112).  The first
component is the caller's frame after the in-place column insertions that the
function performs before copying; the second is the returned frame, `none`
standing for a TypeError raised by comparing a non-numeric column.  -/
def add_simple_risk (df : Table) : Table × Option Table :=
  if (ensured df).rows.all
      (fun r => numOrNullB (getCell r "confidence") && numOrNullB (getCell r "frp")) then
    (ensured df, some (setColWith (ensured df) "risk" riskCellOf))
  else (ensured df, none)

/-!
Region bounds and `filter_region`, src/data.py lines 54-89.
-/

structure RegionBounds : Type where
  lat_min : ℚ
  lat_max : ℚ
  lon_min : ℚ
  lon_max : ℚ
deriving DecidableEq, Repr

/-- The BOUNDS dictionary of src/data.py.  Halves are written with `mkRat`
(-6.5 is -13/2, -4.5 is -9/2, 118.5 is 237/2) because the scientific-notation
literal of ℚ is irreducible and would block kernel evaluation. -/
def BOUNDS : List (String × RegionBounds) :=
  [("Sumatra", ⟨mkRat (-13) 2, mkRat 13 2, 95, 106⟩),
   ("Kalimantan", ⟨mkRat (-9) 2, 3, 108, mkRat 237 2⟩),
   ("Indonesia", ⟨-11, 7, 95, 141⟩)]

/-- One cell of a `.between(lo, hi)` mask: inclusive bounds, NaN compares
false. -/
def cellBetween (x : Cell) (lo hi : ℚ) : Bool :=
  match x with
  | Cell.num q => decide (lo ≤ q ∧ q ≤ hi)
  | _ => false

def rowInBounds (b : RegionBounds) (r : Row) : Bool :=
  cellBetween (getCell r "latitude") b.lat_min b.lat_max &&
    cellBetween (getCell r "longitude") b.lon_min b.lon_max

/-- Embedding of `filter_region`: empty frame when latitude or longitude is
missing, otherwise a row filter against the named region's bounds followed by
`reset_index(drop=True)` (implicit for list-indexed rows).  `none` models a
KeyError (unknown region name) or a TypeError from comparing non-numeric
coordinate columns. -/
def filter_region (df : Table) (region : String) : Option Table :=
  if "latitude" ∉ df.cols then some emptyTable
  else if "longitude" ∉ df.cols then some emptyTable
  else
    match List.lookup region BOUNDS with
    | none => none
    | some b =>
      if df.rows.all (fun r =>
          numOrNullB (getCell r "latitude") && numOrNullB (getCell r "longitude")) then
        some { cols := df.cols, rows := df.rows.filter (rowInBounds b) }
      else none

/-!
Tabular adapters `load_firms_7d` / `load_firms_24h`, src/data.py lines 17-29
and 64-75.  The network fetch plus CSV parse is abstracted as an
`Except String Table` argument: `.error` is a fetch/parse exception.
-/

def allDigits (l : List Char) : Bool := l.all Char.isDigit

def natOfDigits (l : List Char) : ℕ := l.foldl (fun a c => 10 * a + (c.toNat - 48)) 0

/-- Splitting a character list on a separator, like `str.split(sep)` for a
one-character separator (structural recursion; the String.splitOn of the
standard library is well-founded recursion and does not kernel-reduce). -/
def splitChar (sep : Char) : List Char → List (List Char)
  | [] => [[]]
  | c :: cs =>
    if c = sep then [] :: splitChar sep cs
    else
      match splitChar sep cs with
      | [] => [[c]]
      | g :: gs => (c :: g) :: gs

/-- Python `str.strip()` on a character list. -/
def stripWs (l : List Char) : List Char :=
  ((l.dropWhile Char.isWhitespace).reverse.dropWhile Char.isWhitespace).reverse

/-- Mantissa of a numeric string: digits with an optional decimal point and
at least one digit overall. -/
def mantissaQ? (l : List Char) : Option ℚ :=
  match splitChar '.' l with
  | [ip] => if ip ≠ [] ∧ allDigits ip then some ((natOfDigits ip : ℚ)) else none
  | [ip, fp] =>
    if (ip ≠ [] ∨ fp ≠ []) ∧ allDigits ip ∧ allDigits fp then
      some ((natOfDigits ip : ℚ) + (natOfDigits fp : ℚ) / ((10 : ℚ) ^ fp.length))
    else none
  | _ => none

/-- Exponent field of a scientific numeric string: optional sign, then at
least one digit. -/
def expZ? (l : List Char) : Option ℤ :=
  match l with
  | '-' :: rest => if rest ≠ [] ∧ allDigits rest then some (-(natOfDigits rest : ℤ)) else none
  | '+' :: rest => if rest ≠ [] ∧ allDigits rest then some ((natOfDigits rest : ℤ)) else none
  | rest => if rest ≠ [] ∧ allDigits rest then some ((natOfDigits rest : ℤ)) else none

/-- Model of `pd.to_numeric(_, errors="coerce")` on one cell: numeric strings
(optional sign, optional decimal point, optional e/E exponent) parse;
anything else coerces to NaN, which is also what the string "nan" itself
yields.  Infinities have no rational value and no feed carries them. -/
def strToQ? (s : String) : Option ℚ :=
  let t := stripWs s.toList
  let sg : ℚ × List Char :=
    match t with
    | '-' :: rest => (-1, rest)
    | '+' :: rest => (1, rest)
    | rest => (1, rest)
  match splitChar 'e' (sg.2.map (fun c => if c = 'E' then 'e' else c)) with
  | [mant] => (mantissaQ? mant).map (fun v => sg.1 * v)
  | [mant, ex] =>
    match mantissaQ? mant, expZ? ex with
    | some v, some e2 => some (sg.1 * v * (10 : ℚ) ^ e2)
    | _, _ => none
  | _ => none

def coerceNumeric : Cell → Cell
  | Cell.num q => Cell.num q
  | Cell.str s =>
    match strToQ? s with
    | some q => Cell.num q
    | none => Cell.null
  | _ => Cell.null

def fillna0 : Cell → Cell
  | Cell.null => Cell.num 0
  | c => c

/-- A cell that string concatenation with a string column tolerates: a
string, or NaN (which propagates). -/
def strOrNullB : Cell → Bool
  | Cell.str _ => true
  | Cell.null => true
  | _ => false

/-- Python `str()` of one cell, as used by `.astype(str)` on the acq_time
column (integer dtype in the feeds; a non-integer rational renders as a
fraction, which like a float repr never matches the HHMM pattern). -/
def cellToStr : Cell → String
  | Cell.null => "nan"
  | Cell.num q => if q.den = 1 then toString q.num else toString q
  | Cell.str s => s
  | Cell.dt _ _ _ _ _ => "Timestamp"

/-- Python `str.zfill(4)`. -/
def zfill4 (s : String) : String :=
  if s.length < 4 then String.mk (List.replicate (4 - s.length) '0') ++ s else s

def isLeap (y : ℕ) : Bool := (y % 4 = 0 && y % 100 ≠ 0) || y % 400 = 0

def daysInMonth (y m : ℕ) : ℕ :=
  if m = 2 then (if isLeap y then 29 else 28)
  else if m = 4 ∨ m = 6 ∨ m = 9 ∨ m = 11 then 30
  else 31

/-- A 1-or-2-digit numeric field in [lo, hi], as the strptime regexes for
`%m`, `%d` accept. -/
def parse2 (l : List Char) (lo hi : ℕ) : Option ℕ :=
  if (l.length = 1 ∨ l.length = 2) ∧ allDigits l then
    let n := natOfDigits l
    if lo ≤ n ∧ n ≤ hi then some n else none
  else none

/-- Days since 1970-01-01 of a proleptic-Gregorian civil date, the standard
days-from-civil computation (floor divisions via `Int.ediv`). -/
def daysFromCivil (y m d : ℕ) : ℤ :=
  let yi : ℤ := if m ≤ 2 then (y : ℤ) - 1 else (y : ℤ)
  let era : ℤ := yi.ediv 400
  let yoe : ℤ := yi - era * 400
  let mp : ℤ := if 2 < m then (m : ℤ) - 3 else (m : ℤ) + 9
  let doy : ℤ := (153 * mp + 2).ediv 5 + (d : ℤ) - 1
  let doe : ℤ := yoe * 365 + yoe.ediv 4 - yoe.ediv 100 + doy
  era * 146097 + doe - 719468

/-- Minutes since the epoch of a civil date-time at minute resolution. -/
def minutesFromEpoch (y m d hh mi : ℕ) : ℤ :=
  daysFromCivil y m d * 1440 + (hh : ℤ) * 60 + (mi : ℤ)

/-- Whether a whole-minute timestamp is representable as numpy datetime64[ns],
i.e. lies in [1677-09-21 00:12:43.145224193, 2262-04-11 23:47:16.854775807]:
at minute resolution, between 1677-09-21 00:13 and 2262-04-11 23:47
inclusive.  `pd.to_datetime(_, errors="coerce")` turns anything outside
(including year 0, which the strptime stage already rejects) into NaT. -/
def inDatetime64Range (y m d hh mi : ℕ) : Bool :=
  decide (minutesFromEpoch 1677 9 21 0 13 ≤ minutesFromEpoch y m d hh mi
    ∧ minutesFromEpoch y m d hh mi ≤ minutesFromEpoch 2262 4 11 23 47)

/-- `pd.to_datetime(_, format="%Y-%m-%d %H%M", utc=True, errors="coerce")`
on one combined string: a 4-digit year, 1-2 digit calendar-valid month and
day, one space, and exactly four digits HHMM with HH ≤ 23, MM ≤ 59, the
whole lying inside the datetime64[ns] range; any mismatch — including an
out-of-range year like 0000 or 2500 — coerces to NaT. -/
def parseFirmsDT (s : String) : Option Cell :=
  match splitChar ' ' s.toList with
  | [ds, ts] =>
    match splitChar '-' ds with
    | [ys, ms, dds] =>
      if ys.length = 4 ∧ allDigits ys then
        match parse2 ms 1 12, parse2 dds 1 31 with
        | some m, some d =>
          if d ≤ daysInMonth (natOfDigits ys) m then
            if ts.length = 4 ∧ allDigits ts then
              let hh := natOfDigits (ts.take 2)
              let mi := natOfDigits (ts.drop 2)
              if hh ≤ 23 ∧ mi ≤ 59 then
                if inDatetime64Range (natOfDigits ys) m d hh mi then
                  some (Cell.dt (natOfDigits ys) m d hh mi)
                else none
              else none
            else none
          else none
        | _, _ => none
      else none
    | _ => none
  | _ => none

/-- `df["acq_date"] + " " + df["acq_time"].astype(str).str.zfill(4)` then
`to_datetime` for one row: string dates concatenate and parse, a NaN date
propagates to NaT, and a non-string date raises (`none`). -/
def combineDT (dcell tcell : Cell) : Option Cell :=
  match dcell with
  | Cell.null => some Cell.null
  | Cell.str s => some ((parseFirmsDT (s ++ " " ++ zfill4 (cellToStr tcell))).getD Cell.null)
  | _ => none

/-- `df["confidence"] = pd.to_numeric(df["confidence"], errors="coerce")`:
coerced, with no fillna. -/
def firmsConf (raw : Table) : Table :=
  setColWith raw "confidence" (fun r => coerceNumeric (getCell r "confidence"))

/-- `df["frp"] = pd.to_numeric(df["frp"], errors="coerce").fillna(0)` for a
feed that carries an frp column.  When "frp" is absent, `df.get("frp", 0)`
returns the scalar 0, `pd.to_numeric` keeps it a scalar, and `.fillna(0)` on
a scalar raises AttributeError; that error path lives in `firmsTransform`. -/
def firmsFrp (t : Table) : Table :=
  setColWith t "frp" (fun r => fillna0 (coerceNumeric (getCell r "frp")))

/-- The shared body of `load_firms_7d` and `load_firms_24h` after the CSV
fetch: numeric coercion of confidence and frp, then timestamp
reconstruction.  Errors: KeyError for a missing confidence / acq_date /
acq_time column, AttributeError for a missing frp column (`.fillna(0)` on
the scalar that `df.get("frp", 0)` returns), and TypeError for a non-string
acq_date entry. -/
def firmsTransform (raw : Table) : Except String Table :=
  if "confidence" ∉ raw.cols then Except.error "KeyError"
  else if "frp" ∉ raw.cols then Except.error "AttributeError"
  else if "acq_date" ∉ (firmsFrp (firmsConf raw)).cols then Except.error "KeyError"
  else if "acq_time" ∉ (firmsFrp (firmsConf raw)).cols then Except.error "KeyError"
  else if (firmsFrp (firmsConf raw)).rows.all
      (fun r => (combineDT (getCell r "acq_date") (getCell r "acq_time")).isSome) then
    Except.ok (setColWith (firmsFrp (firmsConf raw)) "acq_datetime"
      (fun r => (combineDT (getCell r "acq_date") (getCell r "acq_time")).getD Cell.null))
  else Except.error "TypeError"

/-- `load_firms_7d`: no try/except around the fetch or the transform, so a
fetch failure propagates. -/
def load_firms_7d (fetch : Except String Table) : Except String Table :=
  fetch.bind firmsTransform

/-- `load_firms_24h`: identical body against the 24-hour endpoint. -/
def load_firms_24h (fetch : Except String Table) : Except String Table :=
  fetch.bind firmsTransform

/-!
Structured-feed adapters `load_viirs_snpp_24h` / `load_viirs_noaa20_24h`,
src/data.py lines 31-48.  A feature of the JSON feature collection is an
object whose "properties" key holds a flat record.
-/

abbrev Feature := List (String × Row)

def dedupKeys (l : List String) : List String :=
  l.foldl (fun acc x => if x ∈ acc then acc else acc ++ [x]) []

/-- `pd.json_normalize` on a list of flat records: columns are the keys in
first-appearance order, absent keys fill with NaN. -/
def json_normalize (props : List Row) : Table :=
  let cols := dedupKeys ((props.map (fun r => r.map Prod.fst)).flatten)
  { cols := cols, rows := props.map (fun r => cols.map (fun c => (c, getCell r c))) }

/-- The comprehension `[f["properties"] for f in data]`: every feature's
property bag, or a KeyError (`none`) as soon as one feature lacks the key. -/
def extractProps : List Feature → Option (List Row)
  | [] => some []
  | f :: fs =>
    match List.lookup "properties" f, extractProps fs with
    | some r, some rs => some (r :: rs)
    | _, _ => none

/-- The shared try/except body: any fetch error, and any feature lacking the
"properties" key (a KeyError inside the comprehension), degrade to an empty
frame. -/
def viirsFromFetch (fetch : Except String (List Feature)) : Table :=
  match fetch with
  | Except.error _ => emptyTable
  | Except.ok feats =>
    match extractProps feats with
    | some props => json_normalize props
    | none => emptyTable

def load_viirs_snpp_24h (fetch : Except String (List Feature)) : Table :=
  viirsFromFetch fetch

def load_viirs_noaa20_24h (fetch : Except String (List Feature)) : Table :=
  viirsFromFetch fetch

/-!
Schema unification block of app.py (lines 62-76): the primary MODIS frame
always participates, each optional VIIRS frame joins only when it has rows;
columns are intersected, frames projected and concatenated in adapter order.
-/

/-- `d[common_cols]`: projection of a frame onto a column list. -/
def project (cs : List String) (t : Table) : Table :=
  { cols := cs, rows := t.rows.map (fun r => cs.map (fun c => (c, getCell r c))) }

/-- The dfs-assembly, common-column intersection, projection and
`pd.concat(dfs, ignore_index=True)` of app.py. -/
def unify (a b c : Table) : Table :=
  let dfs := [a] ++ (if 0 < b.rows.length then [b] else [])
    ++ (if 0 < c.rows.length then [c] else [])
  let common := dfs.foldl (fun acc d => acc.filter (fun col => col ∈ d.cols)) a.cols
  { cols := common, rows := (dfs.map (fun d => (project common d).rows)).flatten }

/-!
Display colors: `color_from_risk` in src/geo.py and `safe_hex_to_rgb` in
app.py (lines 170-178).
-/

/-- The palette dictionary of `color_from_risk`. -/
def palette : List (ℤ × String) :=
  [(0, "#00b050"), (1, "#66c266"), (2, "#ffd24d"),
   (3, "#ffb84d"), (4, "#ff704d"), (5, "#ff3333")]

/-- Python `int()` on a rational: truncation toward zero. -/
def pyInt (q : ℚ) : ℤ := if q < 0 then -((-q).floor) else q.floor

/-- `int(x)` on a cell; a non-numeric cell raises. -/
def toPyInt? : Cell → Option ℤ
  | Cell.num q => some (pyInt q)
  | _ => none

/-- Embedding of `color_from_risk`: `palette.get(int(x), "#aaaaaa")` over the
series after `.fillna(0)`; `none` models `int()` raising on a non-numeric
entry. -/
def color_from_risk (risk : List Cell) : Option (List String) :=
  match risk with
  | [] => some []
  | x :: xs =>
    match toPyInt? (fillna0 x), color_from_risk xs with
    | some n, some rest => some (((List.lookup n palette).getD "#aaaaaa") :: rest)
    | _, _ => none

/-- One hex digit of Python `int(_, 16)`: 0-9, a-f or A-F, by code point. -/
def hexDigit? (c : Char) : Option ℕ :=
  if 48 ≤ c.toNat ∧ c.toNat ≤ 57 then some (c.toNat - 48)
  else if 97 ≤ c.toNat ∧ c.toNat ≤ 102 then some (c.toNat - 87)
  else if 65 ≤ c.toNat ∧ c.toNat ≤ 70 then some (c.toNat - 55)
  else none

/-- Python `int(s, 16)` on a two-character slice: surrounding whitespace is
ignored, an optional sign precedes a digit, anything else raises. -/
def hexByte? (l : List Char) : Option ℤ :=
  match stripWs l with
  | [c1] => (hexDigit? c1).map (fun n => (n : ℤ))
  | [c1, c2] =>
    if c1 = '+' then (hexDigit? c2).map (fun n => (n : ℤ))
    else if c1 = '-' then (hexDigit? c2).map (fun n => -(n : ℤ))
    else
      match hexDigit? c1, hexDigit? c2 with
      | some a, some b => some ((16 * a + b : ℕ) : ℤ)
      | _, _ => none
  | _ => none

/-- Embedding of `safe_hex_to_rgb`: non-strings and wrong-length strings fall
back to white, length-6 strings are split into three byte slices; `none`
models `int(_, 16)` raising on a non-hex slice. -/
def safe_hex_to_rgb (h : Cell) : Option (List ℤ) :=
  match h with
  | Cell.str s =>
    let l := (stripWs s.toList).dropWhile (fun ch => ch = '#')
    if l.length = 6 then
      match hexByte? (l.take 2), hexByte? ((l.drop 2).take 2), hexByte? (l.drop 4) with
      | some r2, some g2, some b2 => some [r2, g2, b2]
      | _, _, _ => none
    else some [255, 255, 255]
  | _ => some [255, 255, 255]

/-!
Model training, src/ml.py.
-/

/-- The fixed feature order of `prepare_training_data` and the prediction
step. -/
def featuresList : List String := ["brightness", "confidence", "frp", "lat", "lon", "hour"]

/-- A cell the `.dt` accessor tolerates: a timestamp or NaT. -/
def dtOrNullB : Cell → Bool
  | Cell.dt _ _ _ _ _ => true
  | Cell.null => true
  | _ => false

/-- `series.dt.hour` on one cell: the hour component, NaN for NaT. -/
def hourCell : Cell → Cell
  | Cell.dt _ _ _ hh _ => Cell.num (hh : ℚ)
  | _ => Cell.null

/-- The lat-fixing block of `prepare_training_data`: copy from latitude when
present, else the scalar 0; never drops or fails. -/
def withLat (df : Table) : Table :=
  if "lat" ∈ df.cols then df
  else if "latitude" ∈ df.cols then setColWith df "lat" (fun r => getCell r "latitude")
  else setColWith df "lat" (fun _ => Cell.num 0)

/-- The lon-fixing block, identical shape. -/
def withLon (df : Table) : Table :=
  if "lon" ∈ df.cols then df
  else if "longitude" ∈ df.cols then setColWith df "lon" (fun r => getCell r "longitude")
  else setColWith df "lon" (fun _ => Cell.num 0)

/-- `df.dropna(subset=features + [target])` followed by the X/y split:
KeyError (`none`) when a required column is absent, otherwise exactly the
rows with a null among the six features or the label are dropped. -/
def dropnaFit (d3 : Table) : Option (List (List Cell) × List Cell) :=
  if (featuresList ++ ["risk"]).all (fun c => decide (c ∈ d3.cols)) then
    let kept := d3.rows.filter (fun r =>
      (featuresList ++ ["risk"]).all (fun c => decide (getCell r c ≠ Cell.null)))
    some (kept.map (fun r => featuresList.map (fun c => getCell r c)),
      kept.map (fun r => getCell r "risk"))
  else none

/-- Embedding of `prepare_training_data`: lat/lon fixes, the hour feature
(from acq_datetime when present, else the scalar 0), dropna, and the X/y
split.  `none` models a raised KeyError/TypeError. -/
def prepare_training_data (df : Table) : Option (List (List Cell) × List Cell) :=
  if "acq_datetime" ∈ (withLon (withLat df)).cols then
    if (withLon (withLat df)).rows.all (fun r => dtOrNullB (getCell r "acq_datetime")) then
      dropnaFit (setColWith (withLon (withLat df)) "hour"
        (fun r => hourCell (getCell r "acq_datetime")))
    else none
  else dropnaFit (setColWith (withLon (withLat df)) "hour" (fun _ => Cell.num 0))

/-- The fitted classifier of `train_risk_model`: the RandomForest
hyperparameters of src/ml.py lines 44-48 together with the fit set. -/
structure RFModel : Type where
  n_estimators : ℕ
  max_depth : ℕ
  random_state : ℕ
  Xfit : List (List Cell)
  yfit : List Cell
deriving DecidableEq, Repr

/-- Embedding of `train_risk_model`: prepare, then fit with n_estimators=120,
max_depth=12, random_state=42. -/
def train_risk_model (df : Table) : Option RFModel :=
  (prepare_training_data df).map (fun p => ⟨120, 12, 42, p.1, p.2⟩)

/-- A timestamp cell whose hour component is a valid hour (true for every
datetime pandas can hold; the embedding's `Cell.dt` is unconstrained, so the
training theorem assumes it). -/
def dtHourOK : Cell → Bool
  | Cell.dt _ _ _ hh _ => decide (hh ≤ 23)
  | _ => true

/-- The row transformation performed by `withLat`, as a per-row function. -/
def latRowF (df : Table) (r : Row) : Row :=
  if "lat" ∈ df.cols then r
  else if "latitude" ∈ df.cols then rowSet r "lat" (getCell r "latitude")
  else rowSet r "lat" (Cell.num 0)

/-- The row transformation performed by `withLon`, as a per-row function. -/
def lonRowF (t : Table) (r : Row) : Row :=
  if "lon" ∈ t.cols then r
  else if "longitude" ∈ t.cols then rowSet r "lon" (getCell r "longitude")
  else rowSet r "lon" (Cell.num 0)

/-- Spec-side description (C8): the lat feature of a row — the "lat" column
when present, else copied from "latitude", else 0.  Stated from the claim's
words, to be compared with `prepare_training_data`. -/
def specLatCell (df : Table) (r : Row) : Cell :=
  if "lat" ∈ df.cols then getCell r "lat"
  else if "latitude" ∈ df.cols then getCell r "latitude"
  else Cell.num 0

/-- Spec-side description (C8): the lon feature of a row. -/
def specLonCell (df : Table) (r : Row) : Cell :=
  if "lon" ∈ df.cols then getCell r "lon"
  else if "longitude" ∈ df.cols then getCell r "longitude"
  else Cell.num 0

/-- Spec-side description (C8): the hour feature — the hour of acq_datetime
when the column exists, else 0. -/
def specHourCell (df : Table) (r : Row) : Cell :=
  if "acq_datetime" ∈ df.cols then hourCell (getCell r "acq_datetime") else Cell.num 0

/-- Spec-side description (C8): the 6-feature vector of a row, in the fixed
order brightness, confidence, frp, lat, lon, hour. -/
def specFeatureRow (df : Table) (r : Row) : List Cell :=
  [getCell r "brightness", getCell r "confidence", getCell r "frp",
   specLatCell df r, specLonCell df r, specHourCell df r]

/-- Spec-side description (C8): a row survives dropna exactly when none of
the six features nor the label is null. -/
def specKeep (df : Table) (r : Row) : Bool :=
  (specFeatureRow df r ++ [getCell r "risk"]).all (fun x => decide (x ≠ Cell.null))

/-!
General lemmas about rows, columns and the assignment primitives.
-/

theorem lookup_rowReplace_ne (r : Row) (c c2 : String) (v : Cell) (h : c2 ≠ c) :
    List.lookup c2 (rowReplace r c v) = List.lookup c2 r := by
  induction r with
  | nil => rfl
  | cons p t ih =>
    obtain ⟨k, b⟩ := p
    simp only [rowReplace]
    split
    · rename_i hk
      have hne : (c2 == c) = false := by simp [h]
      have hnek : (c2 == k) = false := by simp [hk ▸ h]
      simp [List.lookup, hne, hnek, ih]
    · simp only [List.lookup]
      cases hkc : (c2 == k) <;> simp [ih]

theorem lookup_rowSet_self (r : Row) (c : String) (v : Cell) :
    List.lookup c (rowSet r c v) = some v := by
  induction r with
  | nil => simp [rowSet, List.lookup]
  | cons p t ih =>
    obtain ⟨k, b⟩ := p
    simp only [rowSet]
    split
    · simp [List.lookup]
    · rename_i hk
      have hne : (c == k) = false := by simp [Ne.symm hk]
      simp [List.lookup, hne, ih]

theorem lookup_rowSet_ne (r : Row) (c c2 : String) (v : Cell) (h : c2 ≠ c) :
    List.lookup c2 (rowSet r c v) = List.lookup c2 r := by
  induction r with
  | nil =>
    have hne : (c2 == c) = false := by simp [h]
    simp [rowSet, List.lookup, hne]
  | cons p t ih =>
    obtain ⟨k, b⟩ := p
    simp only [rowSet]
    split
    · rename_i hk
      have hne : (c2 == c) = false := by simp [h]
      have hnek : (c2 == k) = false := by simp [hk ▸ h]
      simp [List.lookup, hne, hnek, lookup_rowReplace_ne t c c2 v h]
    · simp only [List.lookup]
      cases hkc : (c2 == k) <;> simp [ih]

theorem getCell_rowSet_self (r : Row) (c : String) (v : Cell) :
    getCell (rowSet r c v) c = v := by
  simp [getCell, lookup_rowSet_self]

theorem getCell_rowSet_ne (r : Row) (c c2 : String) (v : Cell) (h : c2 ≠ c) :
    getCell (rowSet r c v) c2 = getCell r c2 := by
  simp [getCell, lookup_rowSet_ne r c c2 v h]

theorem col_setColWith_self (t : Table) (c : String) (f : Row → Cell) :
    (setColWith t c f).col c = t.rows.map f := by
  simp [setColWith, Table.col, List.map_map, Function.comp_def, getCell_rowSet_self]

theorem col_setColWith_ne (t : Table) (c c2 : String) (f : Row → Cell) (h : c2 ≠ c) :
    (setColWith t c f).col c2 = t.col c2 := by
  simp only [setColWith, Table.col, List.map_map, Function.comp_def]
  exact List.map_congr_left (fun r _ => getCell_rowSet_ne r c c2 (f r) h)

theorem cols_setColWith (t : Table) (c : String) (f : Row → Cell) :
    (setColWith t c f).cols = if c ∈ t.cols then t.cols else t.cols ++ [c] := rfl

theorem rows_length_setColWith (t : Table) (c : String) (f : Row → Cell) :
    (setColWith t c f).rows.length = t.rows.length := by
  simp [setColWith]

theorem getCell_eq_null_of_not_mem_keys (r : Row) (c : String)
    (h : c ∉ r.map Prod.fst) : getCell r c = Cell.null := by
  induction r with
  | nil => rfl
  | cons p t ih =>
    obtain ⟨k, b⟩ := p
    simp only [List.map_cons, List.mem_cons, not_or] at h
    have hne : (c == k) = false := by simp [h.1]
    simp only [getCell, List.lookup, hne]
    exact ih h.2

theorem filter_of_map {α β : Type} (g : α → β) (p : β → Bool) (l : List α) :
    (l.map g).filter p = (l.filter (fun a => p (g a))).map g := by
  induction l with
  | nil => rfl
  | cons a t ih =>
    by_cases h : p (g a) <;> simp [List.filter, h, ih]

theorem mem_cols_setColWith (t : Table) (c : String) (f : Row → Cell) (x : String) :
    x ∈ (setColWith t c f).cols ↔ x ∈ t.cols ∨ x = c := by
  simp only [setColWith]
  split
  · rename_i h
    constructor
    · exact Or.inl
    · rintro (hx | rfl)
      · exact hx
      · exact h
  · simp [List.mem_append]

/-!
Lemmas about the risk heuristic and the `ensured` mutation.
-/

theorem pyMax_eq (a b : ℚ) : pyMax a b = max a b := by
  unfold pyMax
  rw [max_def]

theorem pyMin_eq (a b : ℚ) : pyMin a b = min a b := by
  unfold pyMin
  rw [min_def]

theorem thInd_mono (t : ℚ) {x y : ℚ} (h : x ≤ y) : thInd t x ≤ thInd t y := by
  unfold thInd
  by_cases hx : t ≤ x
  · simp [hx, le_trans hx h]
  · by_cases hy : t ≤ y <;> simp [hx, hy]

theorem riskFun_mono_left {c c2 : ℚ} (f : ℚ) (h : c ≤ c2) : riskFun c f ≤ riskFun c2 f := by
  unfold riskFun
  rw [pyMin_eq, pyMin_eq, pyMax_eq, pyMax_eq]
  refine min_le_min ?_ le_rfl
  refine max_le_max ?_ le_rfl
  unfold rawRisk
  have h30 := thInd_mono 30 h
  have h60 := thInd_mono 60 h
  have h85 := thInd_mono 85 h
  linarith

theorem riskFun_mono_right (c : ℚ) {f f2 : ℚ} (h : f ≤ f2) : riskFun c f ≤ riskFun c f2 := by
  unfold riskFun
  rw [pyMin_eq, pyMin_eq, pyMax_eq, pyMax_eq]
  refine min_le_min ?_ le_rfl
  refine max_le_max ?_ le_rfl
  unfold rawRisk
  have h30 := thInd_mono 30 h
  have h80 := thInd_mono 80 h
  linarith

theorem riskFun_nonneg (c f : ℚ) : 0 ≤ riskFun c f := by
  unfold riskFun
  rw [pyMin_eq, pyMax_eq]
  exact le_min (le_max_right _ _) (by norm_num)

theorem riskFun_le_five (c f : ℚ) : riskFun c f ≤ 5 := by
  unfold riskFun
  rw [pyMin_eq, pyMax_eq]
  exact min_le_right _ _

theorem fst_add_simple_risk (df : Table) : (add_simple_risk df).1 = ensured df := by
  unfold add_simple_risk
  split <;> rfl

theorem ensured_of_mem (df : Table) (hc : "confidence" ∈ df.cols) (hf : "frp" ∈ df.cols) :
    ensured df = df := by
  simp [ensured, hc, hf]

theorem ensured_eq_TF (df : Table) (hc : "confidence" ∈ df.cols) (hf : "frp" ∉ df.cols) :
    ensured df = setColWith df "frp" (fun _ => Cell.num 0) := by
  simp [ensured, hc, hf]

theorem ensured_eq_FT (df : Table) (hc : "confidence" ∉ df.cols) (hf : "frp" ∈ df.cols) :
    ensured df = setColWith df "confidence" (fun _ => Cell.num 0) := by
  simp [ensured, hc, mem_cols_setColWith, hf]

theorem ensured_eq_FF (df : Table) (hc : "confidence" ∉ df.cols) (hf : "frp" ∉ df.cols) :
    ensured df = setColWith (setColWith df "confidence" (fun _ => Cell.num 0)) "frp"
      (fun _ => Cell.num 0) := by
  simp [ensured, hc, mem_cols_setColWith, hf]

theorem cols_ensured (df : Table) (x : String) :
    x ∈ (ensured df).cols ↔ x ∈ df.cols ∨ x = "confidence" ∨ x = "frp" := by
  by_cases hc : "confidence" ∈ df.cols <;> by_cases hf : "frp" ∈ df.cols
  · rw [ensured_of_mem df hc hf]
    constructor
    · exact Or.inl
    · rintro (h | rfl | rfl) <;> assumption
  · rw [ensured_eq_TF df hc hf, mem_cols_setColWith]
    constructor
    · rintro (h | rfl)
      · exact Or.inl h
      · exact Or.inr (Or.inr rfl)
    · rintro (h | rfl | rfl)
      · exact Or.inl h
      · exact Or.inl hc
      · exact Or.inr rfl
  · rw [ensured_eq_FT df hc hf, mem_cols_setColWith]
    constructor
    · rintro (h | rfl)
      · exact Or.inl h
      · exact Or.inr (Or.inl rfl)
    · rintro (h | rfl | rfl)
      · exact Or.inl h
      · exact Or.inr rfl
      · exact Or.inl hf
  · rw [ensured_eq_FF df hc hf, mem_cols_setColWith, mem_cols_setColWith]
    tauto

/-- C3: the heuristic risk computed by `add_simple_risk` (per-row function
`riskFun`) is monotone non-decreasing in confidence with frp fixed, monotone
non-decreasing in frp with confidence fixed, and always lies in [0, 5]. -/
theorem c3_riskFun_monotone_bounded :
    ∀ c c2 f f2 : ℚ,
      (c ≤ c2 → riskFun c f ≤ riskFun c2 f)
      ∧ (f ≤ f2 → riskFun c f ≤ riskFun c f2)
      ∧ 0 ≤ riskFun c f ∧ riskFun c f ≤ 5 := by
  intro c c2 f f2
  exact ⟨fun h => riskFun_mono_left f h, fun h => riskFun_mono_right c h,
    riskFun_nonneg c f, riskFun_le_five c f⟩

/-- Witness for C3 at confidence 20 ≤ 90 and frp 0 ≤ 100. -/
theorem c3_witness :
    ((20 : ℚ) ≤ 90 → riskFun 20 0 ≤ riskFun 90 0)
    ∧ ((0 : ℚ) ≤ 100 → riskFun 20 0 ≤ riskFun 20 100)
    ∧ 0 ≤ riskFun 20 0 ∧ riskFun 20 0 ≤ 5 :=
  c3_riskFun_monotone_bounded 20 90 0 100

/-- C1: for every well-formed table whose confidence/frp cells are numeric or
null, `add_simple_risk` attaches a column "risk" whose value per row is the
clipped count of crossed thresholds among confidence ≥ 30/60/85 and
frp ≥ 30/80, nulls reading as 0 and an entirely missing confidence or frp
column reading as the constant 0; on the 2-row table with confidence [20, 90]
and frp [0, 100] the attached risks are [0, 5]. -/
theorem c1_add_simple_risk_spec :
    (∀ df : Table, df.WF →
      (∀ r ∈ df.rows,
        numOrNullB (getCell r "confidence") = true ∧ numOrNullB (getCell r "frp") = true) →
      ∃ out, (add_simple_risk df).2 = some out ∧ "risk" ∈ out.cols ∧
        out.col "risk" = df.rows.map (fun r =>
          Cell.num (riskFun (numOr0 (getCell r "confidence")) (numOr0 (getCell r "frp")))))
    ∧ (add_simple_risk { cols := ["confidence", "frp"],
                         rows := [[("confidence", Cell.num 20), ("frp", Cell.num 0)],
                                  [("confidence", Cell.num 90), ("frp", Cell.num 100)]] }).2.map
        (fun t => t.col "risk") = some [Cell.num 0, Cell.num 5] := by
  constructor
  · intro df hwf hcells
    by_cases hc : "confidence" ∈ df.cols <;> by_cases hf : "frp" ∈ df.cols
    · have he := ensured_of_mem df hc hf
      have hg : ((ensured df).rows.all
          (fun r => numOrNullB (getCell r "confidence") && numOrNullB (getCell r "frp")))
          = true := by
        rw [he, List.all_eq_true]
        intro r hr
        have h := hcells r hr
        simp [h.1, h.2]
      unfold add_simple_risk
      rw [if_pos hg]
      refine ⟨_, rfl, (mem_cols_setColWith _ _ _ _).mpr (Or.inr rfl), ?_⟩
      rw [col_setColWith_self, he]
      rfl
    · have he := ensured_eq_TF df hc hf
      have hg : ((ensured df).rows.all
          (fun r => numOrNullB (getCell r "confidence") && numOrNullB (getCell r "frp")))
          = true := by
        rw [he, List.all_eq_true]
        intro r2 hr2
        simp only [setColWith, List.mem_map] at hr2
        obtain ⟨r, hr, rfl⟩ := hr2
        have h := hcells r hr
        rw [getCell_rowSet_ne r "frp" "confidence" (Cell.num 0) (by decide),
          getCell_rowSet_self r "frp" (Cell.num 0)]
        simp only [h.1, Bool.true_and]
        rfl
      unfold add_simple_risk
      rw [if_pos hg]
      refine ⟨_, rfl, (mem_cols_setColWith _ _ _ _).mpr (Or.inr rfl), ?_⟩
      rw [col_setColWith_self, he]
      simp only [setColWith, List.map_map]
      refine List.map_congr_left (fun r hr => ?_)
      have hnull : getCell r "frp" = Cell.null :=
        getCell_eq_null_of_not_mem_keys r "frp" (by rw [hwf r hr]; exact hf)
      have h1 : getCell (rowSet r "frp" (Cell.num 0)) "confidence" = getCell r "confidence" :=
        getCell_rowSet_ne r "frp" "confidence" (Cell.num 0) (by decide)
      have h2 : getCell (rowSet r "frp" (Cell.num 0)) "frp" = Cell.num 0 :=
        getCell_rowSet_self r "frp" (Cell.num 0)
      simp [riskCellOf, Function.comp_def, h1, h2, hnull, numOr0]
    · have he := ensured_eq_FT df hc hf
      have hg : ((ensured df).rows.all
          (fun r => numOrNullB (getCell r "confidence") && numOrNullB (getCell r "frp")))
          = true := by
        rw [he, List.all_eq_true]
        intro r2 hr2
        simp only [setColWith, List.mem_map] at hr2
        obtain ⟨r, hr, rfl⟩ := hr2
        have h := hcells r hr
        rw [getCell_rowSet_self r "confidence" (Cell.num 0),
          getCell_rowSet_ne r "confidence" "frp" (Cell.num 0) (by decide)]
        simp only [h.2, Bool.and_true]
        rfl
      unfold add_simple_risk
      rw [if_pos hg]
      refine ⟨_, rfl, (mem_cols_setColWith _ _ _ _).mpr (Or.inr rfl), ?_⟩
      rw [col_setColWith_self, he]
      simp only [setColWith, List.map_map]
      refine List.map_congr_left (fun r hr => ?_)
      have hnull : getCell r "confidence" = Cell.null :=
        getCell_eq_null_of_not_mem_keys r "confidence" (by rw [hwf r hr]; exact hc)
      have h1 : getCell (rowSet r "confidence" (Cell.num 0)) "confidence" = Cell.num 0 :=
        getCell_rowSet_self r "confidence" (Cell.num 0)
      have h2 : getCell (rowSet r "confidence" (Cell.num 0)) "frp" = getCell r "frp" :=
        getCell_rowSet_ne r "confidence" "frp" (Cell.num 0) (by decide)
      simp [riskCellOf, Function.comp_def, h1, h2, hnull, numOr0]
    · have he := ensured_eq_FF df hc hf
      have hg : ((ensured df).rows.all
          (fun r => numOrNullB (getCell r "confidence") && numOrNullB (getCell r "frp")))
          = true := by
        rw [he, List.all_eq_true]
        intro r2 hr2
        simp only [setColWith, List.map_map, List.mem_map] at hr2
        obtain ⟨r, hr, rfl⟩ := hr2
        have h1 : getCell (rowSet (rowSet r "confidence" (Cell.num 0)) "frp" (Cell.num 0))
            "confidence" = Cell.num 0 := by
          rw [getCell_rowSet_ne (rowSet r "confidence" (Cell.num 0)) "frp" "confidence"
            (Cell.num 0) (by decide), getCell_rowSet_self r "confidence" (Cell.num 0)]
        have h2 : getCell (rowSet (rowSet r "confidence" (Cell.num 0)) "frp" (Cell.num 0))
            "frp" = Cell.num 0 :=
          getCell_rowSet_self (rowSet r "confidence" (Cell.num 0)) "frp" (Cell.num 0)
        simp only [Function.comp_def, h1, h2]
        rfl
      unfold add_simple_risk
      rw [if_pos hg]
      refine ⟨_, rfl, (mem_cols_setColWith _ _ _ _).mpr (Or.inr rfl), ?_⟩
      rw [col_setColWith_self, he]
      simp only [setColWith, List.map_map]
      refine List.map_congr_left (fun r hr => ?_)
      have hnc : getCell r "confidence" = Cell.null :=
        getCell_eq_null_of_not_mem_keys r "confidence" (by rw [hwf r hr]; exact hc)
      have hnf : getCell r "frp" = Cell.null :=
        getCell_eq_null_of_not_mem_keys r "frp" (by rw [hwf r hr]; exact hf)
      have h1 : getCell (rowSet (rowSet r "confidence" (Cell.num 0)) "frp" (Cell.num 0))
          "confidence" = Cell.num 0 := by
        rw [getCell_rowSet_ne (rowSet r "confidence" (Cell.num 0)) "frp" "confidence"
          (Cell.num 0) (by decide), getCell_rowSet_self r "confidence" (Cell.num 0)]
      have h2 : getCell (rowSet (rowSet r "confidence" (Cell.num 0)) "frp" (Cell.num 0))
          "frp" = Cell.num 0 :=
        getCell_rowSet_self (rowSet r "confidence" (Cell.num 0)) "frp" (Cell.num 0)
      simp [riskCellOf, Function.comp_def, h1, h2, hnc, hnf, numOr0]
  · have e1 : riskFun 20 0 = 0 := by
      simp only [riskFun, rawRisk, thInd, pyMin, pyMax]
      norm_num
    have e2 : riskFun 90 100 = 5 := by
      simp only [riskFun, rawRisk, thInd, pyMin, pyMax]
      norm_num
    simp +decide [add_simple_risk, ensured, setColWith, riskCellOf, rowSet, rowReplace,
      getCell, List.lookup, Table.col, numOrNullB, numOr0, e1, e2]

/-- Witness for C1: the quantified part applied to a concrete well-formed
one-row table that lacks the frp column entirely. -/
theorem c1_witness :
    Table.WF { cols := ["confidence"], rows := [[("confidence", Cell.num 70)]] } ∧
    (∃ out, (add_simple_risk
        { cols := ["confidence"], rows := [[("confidence", Cell.num 70)]] }).2 = some out ∧
      "risk" ∈ out.cols ∧
      out.col "risk" = ({ cols := ["confidence"],
                          rows := [[("confidence", Cell.num 70)]] } : Table).rows.map (fun r =>
        Cell.num (riskFun (numOr0 (getCell r "confidence")) (numOr0 (getCell r "frp"))))) :=
  ⟨by decide, c1_add_simple_risk_spec.1 _ (by decide) (by decide)⟩

theorem map_const_replicate {α β : Type} (l : List α) (b : β) :
    l.map (fun _ => b) = List.replicate l.length b := by
  induction l with
  | nil => rfl
  | cons a t ih => simp [List.replicate, ih]

/-- C10: `add_simple_risk` never adds a "risk" column to its input (risk goes
only to the returned copy); with both confidence and frp present the caller's
frame is untouched; with either absent, the caller's frame is mutated in
place by inserting that column filled with 0 before the copy is made. -/
theorem c10_add_simple_risk_frame :
    ∀ df : Table,
      ("risk" ∉ df.cols → "risk" ∉ (add_simple_risk df).1.cols)
      ∧ ("confidence" ∈ df.cols → "frp" ∈ df.cols → (add_simple_risk df).1 = df)
      ∧ ("confidence" ∉ df.cols → "confidence" ∈ (add_simple_risk df).1.cols ∧
          (add_simple_risk df).1.col "confidence" = List.replicate df.rows.length (Cell.num 0))
      ∧ ("frp" ∉ df.cols → "frp" ∈ (add_simple_risk df).1.cols ∧
          (add_simple_risk df).1.col "frp" = List.replicate df.rows.length (Cell.num 0)) := by
  intro df
  refine ⟨?_, ?_, ?_, ?_⟩
  · intro hr
    rw [fst_add_simple_risk]
    rw [cols_ensured]
    rintro (h | h | h)
    · exact hr h
    · exact absurd h (by decide)
    · exact absurd h (by decide)
  · intro hc hf
    rw [fst_add_simple_risk, ensured_of_mem df hc hf]
  · intro hc
    rw [fst_add_simple_risk]
    by_cases hf : "frp" ∈ df.cols
    · rw [ensured_eq_FT df hc hf]
      refine ⟨(mem_cols_setColWith _ _ _ _).mpr (Or.inr rfl), ?_⟩
      rw [col_setColWith_self, map_const_replicate]
    · rw [ensured_eq_FF df hc hf]
      refine ⟨(mem_cols_setColWith _ _ _ _).mpr
        (Or.inl ((mem_cols_setColWith _ _ _ _).mpr (Or.inr rfl))), ?_⟩
      have hne := col_setColWith_ne (setColWith df "confidence" (fun _ => Cell.num 0)) "frp"
        "confidence" (fun _ => Cell.num 0) (by decide)
      rw [hne, col_setColWith_self, map_const_replicate]
  · intro hf
    rw [fst_add_simple_risk]
    by_cases hc : "confidence" ∈ df.cols
    · rw [ensured_eq_TF df hc hf]
      refine ⟨(mem_cols_setColWith _ _ _ _).mpr (Or.inr rfl), ?_⟩
      rw [col_setColWith_self, map_const_replicate]
    · rw [ensured_eq_FF df hc hf]
      refine ⟨(mem_cols_setColWith _ _ _ _).mpr (Or.inr rfl), ?_⟩
      rw [col_setColWith_self, map_const_replicate, rows_length_setColWith]

/-- Witness for C10 on concrete tables exercising every branch: a table with
both columns (unchanged), one lacking confidence, one lacking frp. -/
theorem c10_witness :
    ("risk" ∉ (add_simple_risk { cols := ["confidence", "frp"], rows := ([] : List Row) }).1.cols)
    ∧ (add_simple_risk { cols := ["confidence", "frp"], rows := ([] : List Row) }).1
      = { cols := ["confidence", "frp"], rows := ([] : List Row) }
    ∧ ("confidence" ∈ (add_simple_risk { cols := ["frp"], rows := [[("frp", Cell.num 1)]] }).1.cols
      ∧ (add_simple_risk { cols := ["frp"], rows := [[("frp", Cell.num 1)]] }).1.col "confidence"
          = List.replicate 1 (Cell.num 0))
    ∧ ("frp" ∈ (add_simple_risk { cols := ["confidence"],
                                  rows := [[("confidence", Cell.num 1)]] }).1.cols
      ∧ (add_simple_risk { cols := ["confidence"],
                           rows := [[("confidence", Cell.num 1)]] }).1.col "frp"
          = List.replicate 1 (Cell.num 0)) :=
  ⟨(c10_add_simple_risk_frame _).1 (by decide),
   (c10_add_simple_risk_frame _).2.1 (by decide) (by decide),
   (c10_add_simple_risk_frame { cols := ["frp"], rows := [[("frp", Cell.num 1)]] }).2.2.1
     (by decide),
   (c10_add_simple_risk_frame { cols := ["confidence"],
                                rows := [[("confidence", Cell.num 1)]] }).2.2.2 (by decide)⟩

/-- C2: `filter_region` returns an empty frame when latitude or longitude is
missing; otherwise, for each of the three named regions, it keeps exactly the
rows whose latitude and longitude lie inclusively within that region's
bounds, in input order, so the output has at most as many rows as the input;
(0, 100) is kept for Sumatra, (0, 120) is not, and latitude 999 is kept by no
region. -/
theorem c2_filter_region_spec :
    (∀ (df : Table) (region : String), "latitude" ∉ df.cols →
      filter_region df region = some emptyTable)
    ∧ (∀ (df : Table) (region : String), "longitude" ∉ df.cols →
      filter_region df region = some emptyTable)
    ∧ (∀ (df : Table) (region : String) (b : RegionBounds),
        List.lookup region BOUNDS = some b →
        "latitude" ∈ df.cols → "longitude" ∈ df.cols →
        (∀ r ∈ df.rows, numOrNullB (getCell r "latitude") = true
          ∧ numOrNullB (getCell r "longitude") = true) →
        filter_region df region =
          some { cols := df.cols,
                 rows := df.rows.filter (fun r =>
                    (match getCell r "latitude" with
                      | Cell.num q => decide (b.lat_min ≤ q ∧ q ≤ b.lat_max)
                      | _ => false)
                    && (match getCell r "longitude" with
                      | Cell.num q => decide (b.lon_min ≤ q ∧ q ≤ b.lon_max)
                      | _ => false)) })
    ∧ (∀ (df : Table) (region : String) (t : Table),
        filter_region df region = some t → t.rows.length ≤ df.rows.length)
    ∧ List.lookup "Sumatra" BOUNDS = some ⟨mkRat (-13) 2, mkRat 13 2, 95, 106⟩
    ∧ List.lookup "Kalimantan" BOUNDS = some ⟨mkRat (-9) 2, 3, 108, mkRat 237 2⟩
    ∧ List.lookup "Indonesia" BOUNDS = some ⟨-11, 7, 95, 141⟩
    ∧ filter_region { cols := ["latitude", "longitude"],
                      rows := [[("latitude", Cell.num 0), ("longitude", Cell.num 100)]] } "Sumatra"
      = some { cols := ["latitude", "longitude"],
               rows := [[("latitude", Cell.num 0), ("longitude", Cell.num 100)]] }
    ∧ filter_region { cols := ["latitude", "longitude"],
                      rows := [[("latitude", Cell.num 0), ("longitude", Cell.num 120)]] } "Sumatra"
      = some { cols := ["latitude", "longitude"], rows := [] }
    ∧ (∀ region ∈ (["Sumatra", "Kalimantan", "Indonesia"] : List String),
        filter_region { cols := ["latitude", "longitude"],
                        rows := [[("latitude", Cell.num 999), ("longitude", Cell.num 100)]] }
            region
          = some { cols := ["latitude", "longitude"], rows := [] }) := by
  refine ⟨?_, ?_, ?_, ?_, by decide, by decide, by decide, by decide, by decide, by decide⟩
  · intro df region h
    simp [filter_region, h]
  · intro df region h
    by_cases hlat : "latitude" ∈ df.cols
    · simp [filter_region, hlat, h]
    · simp [filter_region, hlat]
  · intro df region b hlook hlat hlon hcells
    unfold filter_region
    rw [if_neg (not_not_intro hlat), if_neg (not_not_intro hlon), hlook]
    have hg : (df.rows.all fun r =>
        numOrNullB (getCell r "latitude") && numOrNullB (getCell r "longitude")) = true := by
      rw [List.all_eq_true]
      intro r hr
      have h := hcells r hr
      simp [h.1, h.2]
    dsimp only
    rw [if_pos hg]
    rfl
  · intro df region t h
    unfold filter_region at h
    split at h
    · simp only [Option.some.injEq] at h
      subst h
      simp [emptyTable]
    · split at h
      · simp only [Option.some.injEq] at h
        subst h
        simp [emptyTable]
      · split at h
        · exact Option.noConfusion h
        · rename_i b heq
          split at h
          · simp only [Option.some.injEq] at h
            subst h
            simpa using List.length_filter_le _ df.rows
          · exact Option.noConfusion h

/-- Witness for C2: a frame lacking latitude filters to the empty frame, and
the row-count bound applied at a concrete one-row Sumatra query. -/
theorem c2_witness :
    filter_region { cols := ["longitude"], rows := ([] : List Row) } "Sumatra" = some emptyTable
    ∧ ({ cols := ["latitude", "longitude"],
         rows := [[("latitude", Cell.num 0), ("longitude", Cell.num 100)]] } : Table).rows.length
      ≤ ({ cols := ["latitude", "longitude"],
           rows := [[("latitude", Cell.num 0), ("longitude", Cell.num 100)]] } : Table).rows.length :=
  ⟨c2_filter_region_spec.1 _ "Sumatra" (by decide),
   c2_filter_region_spec.2.2.2.1 _ "Sumatra" _ (by decide)⟩

/-- C6: every failure of an optional structured feed (fetch error, or a
feature missing its property bag) degrades to an empty frame, while an error
in the mandatory tabular feed propagates out of the adapter and aborts. -/
theorem c6_adapter_error_asymmetry :
    ∀ e : String,
      load_viirs_snpp_24h (Except.error e) = emptyTable
      ∧ load_viirs_noaa20_24h (Except.error e) = emptyTable
      ∧ load_firms_24h (Except.error e) = Except.error e
      ∧ load_firms_7d (Except.error e) = Except.error e
      ∧ (∀ feats : List Feature, extractProps feats = none →
          load_viirs_snpp_24h (Except.ok feats) = emptyTable
          ∧ load_viirs_noaa20_24h (Except.ok feats) = emptyTable) := by
  intro e
  refine ⟨rfl, rfl, rfl, rfl, ?_⟩
  intro feats h
  constructor
  · simp [load_viirs_snpp_24h, viirsFromFetch, h]
  · simp [load_viirs_noaa20_24h, viirsFromFetch, h]

/-- Witness for C6: a concrete timeout message, and one feature without a
"properties" key. -/
theorem c6_witness :
    load_viirs_snpp_24h (Except.error "timeout") = emptyTable
    ∧ load_firms_24h (Except.error "timeout") = Except.error "timeout"
    ∧ load_viirs_noaa20_24h (Except.ok [([] : Feature)]) = emptyTable :=
  ⟨(c6_adapter_error_asymmetry "timeout").1,
   (c6_adapter_error_asymmetry "timeout").2.2.1,
   ((c6_adapter_error_asymmetry "timeout").2.2.2.2 [([] : Feature)] (by decide)).2⟩

theorem filter_mem_self (l : List String) : l.filter (fun x => decide (x ∈ l)) = l := by
  rw [List.filter_eq_self]
  intro a ha
  simpa using ha

/-- C7 counterexample: with a primary frame that has columns ["a"] but zero
rows and one non-empty optional frame with columns ["a", "b"], the unified
column set is ["a"] even though "b" belongs to every non-empty input — the
empty primary still participates in the intersection. -/
theorem c7_counterexample :
    ({ cols := ["a"], rows := [] } : Table).rows = []
    ∧ ({ cols := ["a", "b"],
         rows := [[("a", Cell.num 1), ("b", Cell.num 2)]] } : Table).rows ≠ []
    ∧ "b" ∈ ({ cols := ["a", "b"],
               rows := [[("a", Cell.num 1), ("b", Cell.num 2)]] } : Table).cols
    ∧ "b" ∉ (unify { cols := ["a"], rows := [] }
        { cols := ["a", "b"], rows := [[("a", Cell.num 1), ("b", Cell.num 2)]] }
        { cols := [], rows := [] }).cols := by
  refine ⟨rfl, by decide, by decide, by decide⟩

/-- C7 (amended): the unified columns are exactly those columns of the
primary frame that also occur in every non-empty optional frame (the primary
participates in the intersection whether or not it has rows); the rows are
the projections concatenated in adapter order with the primary first; and
with both optional frames empty the unified frame coincides with the primary
projected onto its own full column set. -/
theorem c7_unify_amended :
    (∀ (a b c : Table) (x : String),
      x ∈ (unify a b c).cols ↔ x ∈ a.cols ∧ (b.rows ≠ [] → x ∈ b.cols)
        ∧ (c.rows ≠ [] → x ∈ c.cols))
    ∧ (∀ a b c : Table, (unify a b c).rows =
        (project (unify a b c).cols a).rows
        ++ (if 0 < b.rows.length then (project (unify a b c).cols b).rows else [])
        ++ (if 0 < c.rows.length then (project (unify a b c).cols c).rows else []))
    ∧ (∀ a b c : Table, b.rows = [] → c.rows = [] → unify a b c = project a.cols a) := by
  refine ⟨?_, ?_, ?_⟩
  · intro a b c x
    by_cases hb : b.rows = [] <;> by_cases hc : c.rows = [] <;>
      simp [unify, hb, hc, List.mem_filter, List.length_pos] <;> tauto
  · intro a b c
    by_cases hb : b.rows = [] <;> by_cases hc : c.rows = [] <;>
      · simp [unify, hb, hc, List.length_pos]
  · intro a b c hb hc
    simp [unify, hb, hc, project, filter_mem_self]

/-- Witness for C7 at concrete frames: the column characterization at one
column, and the empty-optionals round trip. -/
theorem c7_witness :
    ("x" ∈ (unify { cols := ["x"], rows := [[("x", Cell.num 3)]] }
        { cols := [], rows := [] } { cols := [], rows := [] }).cols
      ↔ "x" ∈ ({ cols := ["x"], rows := [[("x", Cell.num 3)]] } : Table).cols
        ∧ (({ cols := [], rows := [] } : Table).rows ≠ [] →
            "x" ∈ ({ cols := [], rows := [] } : Table).cols)
        ∧ (({ cols := [], rows := [] } : Table).rows ≠ [] →
            "x" ∈ ({ cols := [], rows := [] } : Table).cols))
    ∧ unify { cols := ["x"], rows := [[("x", Cell.num 3)]] }
        { cols := [], rows := [] } { cols := [], rows := [] }
      = project ({ cols := ["x"], rows := [[("x", Cell.num 3)]] } : Table).cols
          { cols := ["x"], rows := [[("x", Cell.num 3)]] } :=
  ⟨c7_unify_amended.1 _ _ _ "x", c7_unify_amended.2.2 _ _ _ rfl rfl⟩

/-!
Lemmas about the tabular-adapter transform.
-/

theorem combineDT_isSome (d t : Cell) (h : strOrNullB d = true) :
    (combineDT d t).isSome = true := by
  cases d <;> simp [combineDT, strOrNullB] at h ⊢

theorem cols_firmsConf (raw : Table) (hc : "confidence" ∈ raw.cols) :
    (firmsConf raw).cols = raw.cols := by
  simp [firmsConf, setColWith, hc]

theorem mem_cols_firmsFrp (t : Table) (x : String) (hx : x ∈ t.cols) :
    x ∈ (firmsFrp t).cols :=
  (mem_cols_setColWith _ _ _ _).mpr (Or.inl hx)

theorem col_firmsFrp_ne (t : Table) (c : String) (h : c ≠ "frp") :
    (firmsFrp t).col c = t.col c :=
  col_setColWith_ne _ _ _ _ h

theorem rows_length_firmsFrp (t : Table) : (firmsFrp t).rows.length = t.rows.length := by
  simp [firmsFrp, setColWith]

theorem rows_length_firmsConf (t : Table) : (firmsConf t).rows.length = t.rows.length := by
  simp [firmsConf, setColWith]

theorem mem_rows_firmsFrp (t : Table) (r2 : Row) (hr2 : r2 ∈ (firmsFrp t).rows) :
    ∃ r ∈ t.rows, ∃ v, r2 = rowSet r "frp" v := by
  simp only [firmsFrp, setColWith, List.mem_map] at hr2
  obtain ⟨r, hr, rfl⟩ := hr2
  exact ⟨r, hr, _, rfl⟩

theorem mem_rows_firmsConf (t : Table) (r2 : Row) (hr2 : r2 ∈ (firmsConf t).rows) :
    ∃ r ∈ t.rows, ∃ v, r2 = rowSet r "confidence" v := by
  simp only [firmsConf, setColWith, List.mem_map] at hr2
  obtain ⟨r, hr, rfl⟩ := hr2
  exact ⟨r, hr, _, rfl⟩

theorem firms_guard (raw : Table)
    (hdate : ∀ r ∈ raw.rows, strOrNullB (getCell r "acq_date") = true) :
    ((firmsFrp (firmsConf raw)).rows.all
      (fun r => (combineDT (getCell r "acq_date") (getCell r "acq_time")).isSome)) = true := by
  rw [List.all_eq_true]
  intro r2 hr2
  obtain ⟨r1, hr1, v2, rfl⟩ := mem_rows_firmsFrp _ _ hr2
  obtain ⟨r, hr, v1, rfl⟩ := mem_rows_firmsConf _ _ hr1
  rw [getCell_rowSet_ne _ "frp" "acq_date" _ (by decide),
    getCell_rowSet_ne _ "confidence" "acq_date" _ (by decide),
    getCell_rowSet_ne _ "frp" "acq_time" _ (by decide),
    getCell_rowSet_ne _ "confidence" "acq_time" _ (by decide)]
  simp [combineDT_isSome _ _ (hdate r hr)]

theorem firmsTransform_ok (raw : Table) (hc : "confidence" ∈ raw.cols)
    (hfrp : "frp" ∈ raw.cols)
    (hd : "acq_date" ∈ raw.cols) (ht : "acq_time" ∈ raw.cols)
    (hdate : ∀ r ∈ raw.rows, strOrNullB (getCell r "acq_date") = true) :
    firmsTransform raw = Except.ok (setColWith (firmsFrp (firmsConf raw)) "acq_datetime"
      (fun r => (combineDT (getCell r "acq_date") (getCell r "acq_time")).getD Cell.null)) := by
  have hd2 : "acq_date" ∈ (firmsFrp (firmsConf raw)).cols :=
    mem_cols_firmsFrp _ _ (by rw [cols_firmsConf raw hc]; exact hd)
  have ht2 : "acq_time" ∈ (firmsFrp (firmsConf raw)).cols :=
    mem_cols_firmsFrp _ _ (by rw [cols_firmsConf raw hc]; exact ht)
  unfold firmsTransform
  rw [if_neg (not_not_intro hc), if_neg (not_not_intro hfrp), if_neg (not_not_intro hd2),
    if_neg (not_not_intro ht2), if_pos (firms_guard raw hdate)]

theorem fillna0_coerceNumeric_isNum (x : Cell) :
    ∃ q : ℚ, fillna0 (coerceNumeric x) = Cell.num q := by
  cases x with
  | null => exact ⟨0, rfl⟩
  | num q => exact ⟨q, rfl⟩
  | str s =>
    cases hs : strToQ? s with
    | none => exact ⟨0, by simp [coerceNumeric, hs, fillna0]⟩
    | some q => exact ⟨q, by simp [coerceNumeric, hs, fillna0]⟩
  | dt y m d hh mi => exact ⟨0, rfl⟩

/-- C4 counterexample: a one-row feed carrying an frp column but whose
confidence field is missing (NaN in the parsed CSV) is ingested by
`load_firms_7d` with a null confidence — `to_numeric` is applied to
confidence without the `.fillna(0)` that frp gets, so the claimed "no null
confidence after ingestion" invariant fails. -/
theorem c4_counterexample :
    (load_firms_7d (Except.ok
      { cols := ["confidence", "frp", "acq_date", "acq_time"],
        rows := [[("confidence", Cell.null), ("frp", Cell.num 3),
                  ("acq_date", Cell.str "2024-01-02"),
                  ("acq_time", Cell.num 455)]] })).toOption.map (fun t => t.col "confidence")
      = some [Cell.null] := by
  have h := firmsTransform_ok
    { cols := ["confidence", "frp", "acq_date", "acq_time"],
      rows := [[("confidence", Cell.null), ("frp", Cell.num 3),
                ("acq_date", Cell.str "2024-01-02"),
                ("acq_time", Cell.num 455)]] }
    (by decide) (by decide) (by decide) (by decide) (by decide)
  have h2 : load_firms_7d (Except.ok
      { cols := ["confidence", "frp", "acq_date", "acq_time"],
        rows := [[("confidence", Cell.null), ("frp", Cell.num 3),
                  ("acq_date", Cell.str "2024-01-02"),
                  ("acq_time", Cell.num 455)]] }) = Except.ok _ := h
  rw [h2]
  simp only [Except.toOption, Option.map]
  rw [col_setColWith_ne _ "acq_datetime" "confidence" _ (by decide),
    col_firmsFrp_ne _ "confidence" (by decide)]
  unfold firmsConf
  rw [col_setColWith_self]
  decide

/-- C4 (amended): for a feed that carries an frp column, ingestion leaves
every frp value numeric (a null or non-numeric frp coerces to 0) while
confidence is only coerced to numeric-or-null — a missing or non-numeric
confidence entry stays null rather than becoming 0; and a feed without an
frp column makes the adapter raise (AttributeError from `.fillna(0)` on the
scalar default) instead of loading. -/
theorem c4_firms_numeric_amended :
    (∀ raw : Table, "confidence" ∈ raw.cols → "frp" ∈ raw.cols →
      "acq_date" ∈ raw.cols → "acq_time" ∈ raw.cols →
      (∀ r ∈ raw.rows, strOrNullB (getCell r "acq_date") = true) →
      ∃ out, load_firms_7d (Except.ok raw) = Except.ok out
        ∧ load_firms_24h (Except.ok raw) = Except.ok out
        ∧ out.col "confidence" = raw.rows.map (fun r => coerceNumeric (getCell r "confidence"))
        ∧ (∀ cell ∈ out.col "frp", ∃ q : ℚ, cell = Cell.num q))
    ∧ (∀ raw : Table, "confidence" ∈ raw.cols → "frp" ∉ raw.cols →
        load_firms_7d (Except.ok raw) = Except.error "AttributeError"
        ∧ load_firms_24h (Except.ok raw) = Except.error "AttributeError") := by
  constructor
  · intro raw hc hfrp hd ht hdate
    have hT := firmsTransform_ok raw hc hfrp hd ht hdate
    refine ⟨_, hT, hT, ?_, ?_⟩
    · rw [col_setColWith_ne _ "acq_datetime" "confidence" _ (by decide),
        col_firmsFrp_ne _ "confidence" (by decide)]
      unfold firmsConf
      rw [col_setColWith_self]
    · intro cell hcell
      rw [col_setColWith_ne _ "acq_datetime" "frp" _ (by decide)] at hcell
      unfold firmsFrp at hcell
      rw [col_setColWith_self] at hcell
      simp only [List.mem_map] at hcell
      obtain ⟨r, hr, rfl⟩ := hcell
      exact fillna0_coerceNumeric_isNum _
  · intro raw hc hfrpn
    have hT : firmsTransform raw = Except.error "AttributeError" := by
      unfold firmsTransform
      rw [if_neg (not_not_intro hc), if_pos hfrpn]
    exact ⟨hT, hT⟩

/-- Witness for C4: a concrete one-row feed with an frp column and a
non-numeric confidence string loads with confidence null and frp numeric,
and a feed without an frp column errors. -/
theorem c4_witness :
    (∃ out, load_firms_7d (Except.ok
      { cols := ["confidence", "frp", "acq_date", "acq_time"],
        rows := [[("confidence", Cell.str "nominal"), ("frp", Cell.null),
                  ("acq_date", Cell.str "2024-01-02"),
                  ("acq_time", Cell.num 455)]] }) = Except.ok out
      ∧ load_firms_24h (Except.ok
        { cols := ["confidence", "frp", "acq_date", "acq_time"],
          rows := [[("confidence", Cell.str "nominal"), ("frp", Cell.null),
                    ("acq_date", Cell.str "2024-01-02"),
                    ("acq_time", Cell.num 455)]] }) = Except.ok out
      ∧ out.col "confidence" = (
        { cols := ["confidence", "frp", "acq_date", "acq_time"],
          rows := [[("confidence", Cell.str "nominal"), ("frp", Cell.null),
                    ("acq_date", Cell.str "2024-01-02"),
                    ("acq_time", Cell.num 455)]] } : Table).rows.map
          (fun r => coerceNumeric (getCell r "confidence"))
      ∧ (∀ cell ∈ out.col "frp", ∃ q : ℚ, cell = Cell.num q))
    ∧ load_firms_7d (Except.ok
      { cols := ["confidence", "acq_date", "acq_time"],
        rows := [] }) = Except.error "AttributeError"
    ∧ load_firms_24h (Except.ok
      { cols := ["confidence", "acq_date", "acq_time"],
        rows := [] }) = Except.error "AttributeError" :=
  ⟨c4_firms_numeric_amended.1 _ (by decide) (by decide) (by decide) (by decide) (by decide),
   (c4_firms_numeric_amended.2 _ (by decide) (by decide)).1,
   (c4_firms_numeric_amended.2 _ (by decide) (by decide)).2⟩

/-- C9: for a feed carrying the mandatory confidence, frp, acq_date and
acq_time columns, the tabular adapter reconstructs each row's timestamp by
concatenating the date field, a space, and the time field zero-padded to four
digits, parsed against the exact year-month-day space HHMM pattern as UTC
inside the datetime64[ns] range; a combination that does not match yields a
null timestamp and the row is retained (the output has exactly as many rows
as the input). -/
theorem c9_firms_timestamp :
    ∀ raw : Table, "confidence" ∈ raw.cols → "frp" ∈ raw.cols →
      "acq_date" ∈ raw.cols → "acq_time" ∈ raw.cols →
      (∀ r ∈ raw.rows, strOrNullB (getCell r "acq_date") = true) →
      (∃ out, load_firms_7d (Except.ok raw) = Except.ok out
        ∧ out.rows.length = raw.rows.length
        ∧ out.col "acq_datetime" = raw.rows.map (fun r =>
            match getCell r "acq_date" with
            | Cell.str s =>
              (parseFirmsDT (s ++ " " ++ zfill4 (cellToStr (getCell r "acq_time")))).getD
                Cell.null
            | _ => Cell.null))
      ∧ parseFirmsDT "2024-01-02 0455" = some (Cell.dt 2024 1 2 4 55)
      ∧ parseFirmsDT "2024-13-02 0455" = none
      ∧ parseFirmsDT "2024-01-02 2461" = none
      ∧ parseFirmsDT "2500-01-02 0455" = none
      ∧ parseFirmsDT "0000-01-02 0455" = none := by
  intro raw hc hfrp hd ht hdate
  refine ⟨⟨_, firmsTransform_ok raw hc hfrp hd ht hdate, ?_, ?_⟩,
    by decide, by decide, by decide, by decide, by decide⟩
  · rw [rows_length_setColWith, rows_length_firmsFrp, rows_length_firmsConf]
  · rw [col_setColWith_self]
    simp only [firmsFrp, firmsConf, setColWith, List.map_map]
    refine List.map_congr_left (fun r hr => ?_)
    simp only [Function.comp_def]
    rw [getCell_rowSet_ne _ "frp" "acq_date" _ (by decide),
      getCell_rowSet_ne _ "confidence" "acq_date" _ (by decide),
      getCell_rowSet_ne _ "frp" "acq_time" _ (by decide),
      getCell_rowSet_ne _ "confidence" "acq_time" _ (by decide)]
    cases hcell : getCell r "acq_date" <;> simp [combineDT]

/-- Witness for C9 at a concrete one-row feed whose time field 7 zero-pads to
"0007". -/
theorem c9_witness :
    (∃ out, load_firms_7d (Except.ok
      { cols := ["confidence", "frp", "acq_date", "acq_time"],
        rows := [[("confidence", Cell.num 80), ("frp", Cell.num 12),
                  ("acq_date", Cell.str "2023-12-31"),
                  ("acq_time", Cell.num 7)]] }) = Except.ok out
      ∧ out.rows.length = ({ cols := ["confidence", "frp", "acq_date", "acq_time"],
                             rows := [[("confidence", Cell.num 80), ("frp", Cell.num 12),
                                       ("acq_date", Cell.str "2023-12-31"),
                                       ("acq_time", Cell.num 7)]] } : Table).rows.length
      ∧ out.col "acq_datetime" = ({ cols := ["confidence", "frp", "acq_date", "acq_time"],
                                    rows := [[("confidence", Cell.num 80), ("frp", Cell.num 12),
                                              ("acq_date", Cell.str "2023-12-31"),
                                              ("acq_time", Cell.num 7)]] } : Table).rows.map
          (fun r =>
            match getCell r "acq_date" with
            | Cell.str s =>
              (parseFirmsDT (s ++ " " ++ zfill4 (cellToStr (getCell r "acq_time")))).getD
                Cell.null
            | _ => Cell.null))
    ∧ parseFirmsDT "2024-01-02 0455" = some (Cell.dt 2024 1 2 4 55)
    ∧ parseFirmsDT "2024-13-02 0455" = none
    ∧ parseFirmsDT "2024-01-02 2461" = none
    ∧ parseFirmsDT "2500-01-02 0455" = none
    ∧ parseFirmsDT "0000-01-02 0455" = none :=
  c9_firms_timestamp _ (by decide) (by decide) (by decide) (by decide) (by decide)

/-!
Lemmas for the display-color functions.
-/

theorem lookup_palette_none (n : ℤ) (h : n < 0 ∨ 5 < n) : List.lookup n palette = none := by
  have h0 : (n == (0 : ℤ)) = false := by simp; omega
  have h1 : (n == (1 : ℤ)) = false := by simp; omega
  have h2 : (n == (2 : ℤ)) = false := by simp; omega
  have h3 : (n == (3 : ℤ)) = false := by simp; omega
  have h4 : (n == (4 : ℤ)) = false := by simp; omega
  have h5 : (n == (5 : ℤ)) = false := by simp; omega
  simp [palette, List.lookup, h0, h1, h2, h3, h4, h5]

theorem hexDigit?_le (c : Char) (a : ℕ) (h : hexDigit? c = some a) : a ≤ 15 := by
  unfold hexDigit? at h
  split at h
  · rename_i hc
    injection h with h
    omega
  · split at h
    · rename_i hc
      injection h with h
      omega
    · split at h
      · rename_i hc
        injection h with h
        omega
      · exact absurd h (by simp)

theorem hexDigit?_not_ws (c : Char) (h : (hexDigit? c).isSome = true) :
    c.isWhitespace = false := by
  by_contra hws
  simp only [Bool.not_eq_false, Char.isWhitespace] at hws
  simp only [Bool.or_eq_true, decide_eq_true_eq] at hws
  rcases hws with ((rfl | rfl) | rfl) | rfl <;> exact absurd h (by decide)

theorem dropWhile_eq_self_of_false {p : Char → Bool} (l : List Char)
    (h : ∀ c ∈ l, p c = false) : l.dropWhile p = l := by
  cases l with
  | nil => rfl
  | cons a t => simp [List.dropWhile, h a (by simp)]

theorem stripWs_of_no_ws (l : List Char) (h : ∀ c ∈ l, c.isWhitespace = false) :
    stripWs l = l := by
  unfold stripWs
  rw [dropWhile_eq_self_of_false l h,
    dropWhile_eq_self_of_false l.reverse (fun c hc => h c (List.mem_reverse.mp hc)),
    List.reverse_reverse]

theorem hexByte?_pair (c1 c2 : Char) (h1 : (hexDigit? c1).isSome = true)
    (h2 : (hexDigit? c2).isSome = true) :
    ∃ v : ℤ, hexByte? [c1, c2] = some v ∧ 0 ≤ v ∧ v ≤ 255 := by
  have hs : stripWs [c1, c2] = [c1, c2] := by
    refine stripWs_of_no_ws _ (fun c hc => ?_)
    simp only [List.mem_cons, List.not_mem_nil, or_false] at hc
    rcases hc with rfl | rfl
    · exact hexDigit?_not_ws c h1
    · exact hexDigit?_not_ws c h2
  have hp : c1 ≠ '+' := by
    rintro rfl
    exact absurd h1 (by decide)
  have hm : c1 ≠ '-' := by
    rintro rfl
    exact absurd h1 (by decide)
  obtain ⟨a, ha⟩ := Option.isSome_iff_exists.mp h1
  obtain ⟨b, hb⟩ := Option.isSome_iff_exists.mp h2
  have hav := hexDigit?_le c1 a ha
  have hbv := hexDigit?_le c2 b hb
  refine ⟨((16 * a + b : ℕ) : ℤ), ?_, by positivity, by push_cast; omega⟩
  unfold hexByte?
  rw [hs]
  simp only [if_neg hp, if_neg hm, ha, hb]

/-- C5 counterexample: a missing (null) risk value is colored green "#00b050"
(it is filled with 0 before the palette lookup), not neutral gray; and the
six-character non-hex string "zzzzzz" makes the hex conversion raise
(`none`) instead of substituting opaque white. -/
theorem c5_counterexample :
    color_from_risk [Cell.null] = some ["#00b050"]
    ∧ color_from_risk [Cell.null] ≠ some ["#aaaaaa"]
    ∧ safe_hex_to_rgb (Cell.str "zzzzzz") = none
    ∧ safe_hex_to_rgb (Cell.str "zzzzzz") ≠ some [255, 255, 255] := by
  refine ⟨by decide, by decide, by decide, by decide⟩

/-- C5 (amended): the palette maps each integer risk 0-5 to its color and any
out-of-range numeric risk to neutral gray, but a missing risk is treated as 0
and colored green; non-strings and wrong-length strings fall back to opaque
white, and a length-6 string of hex digits converts to an RGB triple with
each component in [0, 255] (a length-6 string with a non-hex slice raises
instead of falling back). -/
theorem c5_color_amended :
    color_from_risk [Cell.num 0, Cell.num 1, Cell.num 2, Cell.num 3, Cell.num 4, Cell.num 5]
      = some ["#00b050", "#66c266", "#ffd24d", "#ffb84d", "#ff704d", "#ff3333"]
    ∧ (∀ q : ℚ, (pyInt q < 0 ∨ 5 < pyInt q) → color_from_risk [Cell.num q] = some ["#aaaaaa"])
    ∧ color_from_risk [Cell.null] = some ["#00b050"]
    ∧ (∀ x : Cell, (∀ s, x ≠ Cell.str s) → safe_hex_to_rgb x = some [255, 255, 255])
    ∧ (∀ s : String, ((stripWs s.toList).dropWhile (fun ch => ch = '#')).length ≠ 6 →
        safe_hex_to_rgb (Cell.str s) = some [255, 255, 255])
    ∧ (∀ s : String,
        ((stripWs s.toList).dropWhile (fun ch => ch = '#')).length = 6 →
        (∀ c ∈ (stripWs s.toList).dropWhile (fun ch => ch = '#'),
          (hexDigit? c).isSome = true) →
        ∃ a b c2 : ℤ, safe_hex_to_rgb (Cell.str s) = some [a, b, c2]
          ∧ 0 ≤ a ∧ a ≤ 255 ∧ 0 ≤ b ∧ b ≤ 255 ∧ 0 ≤ c2 ∧ c2 ≤ 255) := by
  refine ⟨by decide, ?_, by decide, ?_, ?_, ?_⟩
  · intro q h
    simp only [color_from_risk, fillna0, toPyInt?, lookup_palette_none (pyInt q) h]
    rfl
  · intro x hx
    cases x with
    | str s => exact absurd rfl (hx s)
    | null => rfl
    | num q => rfl
    | dt y m d hh mi => rfl
  · intro s h
    simp only [safe_hex_to_rgb]
    rw [if_neg h]
  · intro s hlen hdig
    rcases hl : (stripWs s.toList).dropWhile (fun ch => ch = '#') with
      _ | ⟨a, _ | ⟨b, _ | ⟨c, _ | ⟨d, _ | ⟨e, _ | ⟨f, _ | ⟨g, t⟩⟩⟩⟩⟩⟩⟩ <;>
      rw [hl] at hlen <;> simp only [List.length] at hlen <;> try omega
    rw [hl] at hdig
    have ha := hdig a (by simp)
    have hb := hdig b (by simp)
    have hc := hdig c (by simp)
    have hd := hdig d (by simp)
    have he := hdig e (by simp)
    have hf := hdig f (by simp)
    obtain ⟨v1, hv1, hv1l, hv1u⟩ := hexByte?_pair a b ha hb
    obtain ⟨v2, hv2, hv2l, hv2u⟩ := hexByte?_pair c d hc hd
    obtain ⟨v3, hv3, hv3l, hv3u⟩ := hexByte?_pair e f he hf
    refine ⟨v1, v2, v3, ?_, hv1l, hv1u, hv2l, hv2u, hv3l, hv3u⟩
    simp only [safe_hex_to_rgb, hl]
    rw [if_pos (by rfl)]
    simp only [List.take, List.drop]
    rw [hv1, hv2, hv3]

/-- Witness for C5: out-of-range risk 7 is gray, a null cell and a
wrong-length string fall back to white, and "#ff8000" converts to a bounded
triple. -/
theorem c5_witness :
    color_from_risk [Cell.num 7] = some ["#aaaaaa"]
    ∧ safe_hex_to_rgb Cell.null = some [255, 255, 255]
    ∧ safe_hex_to_rgb (Cell.str "abc") = some [255, 255, 255]
    ∧ (∃ a b c2 : ℤ, safe_hex_to_rgb (Cell.str "#ff8000") = some [a, b, c2]
        ∧ 0 ≤ a ∧ a ≤ 255 ∧ 0 ≤ b ∧ b ≤ 255 ∧ 0 ≤ c2 ∧ c2 ≤ 255) :=
  ⟨c5_color_amended.2.1 7 (by decide),
   c5_color_amended.2.2.2.1 Cell.null (fun s h => Cell.noConfusion h),
   c5_color_amended.2.2.2.2.1 "abc" (by decide),
   c5_color_amended.2.2.2.2.2 "#ff8000" (by decide) (by decide)⟩

/-!
Lemmas about the training-data preparation.
-/

theorem rows_withLat (df : Table) : (withLat df).rows = df.rows.map (latRowF df) := by
  unfold withLat latRowF
  split
  · rename_i h
    simp [h]
  · rename_i h
    split <;> rename_i h2 <;> simp [setColWith, h, h2]

theorem rows_withLon (t : Table) : (withLon t).rows = t.rows.map (lonRowF t) := by
  unfold withLon lonRowF
  split
  · rename_i h
    simp [h]
  · rename_i h
    split <;> rename_i h2 <;> simp [setColWith, h, h2]

theorem mem_cols_withLat_mono (df : Table) (x : String) (hx : x ∈ df.cols) :
    x ∈ (withLat df).cols := by
  unfold withLat
  split
  · exact hx
  · split <;> exact (mem_cols_setColWith _ _ _ _).mpr (Or.inl hx)

theorem mem_cols_withLon_mono (t : Table) (x : String) (hx : x ∈ t.cols) :
    x ∈ (withLon t).cols := by
  unfold withLon
  split
  · exact hx
  · split <;> exact (mem_cols_setColWith _ _ _ _).mpr (Or.inl hx)

theorem lat_mem_cols_withLat (df : Table) : "lat" ∈ (withLat df).cols := by
  unfold withLat
  split
  · assumption
  · split <;> exact (mem_cols_setColWith _ _ _ _).mpr (Or.inr rfl)

theorem lon_mem_cols_withLon (t : Table) : "lon" ∈ (withLon t).cols := by
  unfold withLon
  split
  · assumption
  · split <;> exact (mem_cols_setColWith _ _ _ _).mpr (Or.inr rfl)

theorem mem_cols_withLat_ne (df : Table) (x : String) (h : x ≠ "lat") :
    x ∈ (withLat df).cols ↔ x ∈ df.cols := by
  unfold withLat
  split
  · exact Iff.rfl
  · split <;> rw [mem_cols_setColWith] <;> exact or_iff_left h

theorem mem_cols_withLon_ne (t : Table) (x : String) (h : x ≠ "lon") :
    x ∈ (withLon t).cols ↔ x ∈ t.cols := by
  unfold withLon
  split
  · exact Iff.rfl
  · split <;> rw [mem_cols_setColWith] <;> exact or_iff_left h

theorem getCell_latRowF_ne (df : Table) (r : Row) (c : String) (h : c ≠ "lat") :
    getCell (latRowF df r) c = getCell r c := by
  unfold latRowF
  split
  · rfl
  · split <;> exact getCell_rowSet_ne _ _ _ _ h

theorem getCell_lonRowF_ne (t : Table) (r : Row) (c : String) (h : c ≠ "lon") :
    getCell (lonRowF t r) c = getCell r c := by
  unfold lonRowF
  split
  · rfl
  · split <;> exact getCell_rowSet_ne _ _ _ _ h

theorem getCell_latRowF_lat (df : Table) (r : Row) :
    getCell (latRowF df r) "lat" = specLatCell df r := by
  unfold latRowF specLatCell
  split
  · rfl
  · split <;> rw [getCell_rowSet_self]

theorem getCell_lonRowF_lon (df : Table) (r : Row) :
    getCell (lonRowF (withLat df) (latRowF df r)) "lon" = specLonCell df r := by
  unfold lonRowF specLonCell
  simp only [mem_cols_withLat_ne df "lon" (by decide),
    mem_cols_withLat_ne df "longitude" (by decide)]
  split
  · exact getCell_latRowF_ne df r "lon" (by decide)
  · split
    · rw [getCell_rowSet_self, getCell_latRowF_ne df r "longitude" (by decide)]
    · rw [getCell_rowSet_self]

theorem dropnaFit_prep (df : Table) (hf : Row → Cell)
    (hrisk : "risk" ∈ df.cols) (hbr : "brightness" ∈ df.cols)
    (hcf : "confidence" ∈ df.cols) (hfrp : "frp" ∈ df.cols)
    (hagree : ∀ r ∈ df.rows, hf (lonRowF (withLat df) (latRowF df r)) = specHourCell df r) :
    dropnaFit (setColWith (withLon (withLat df)) "hour" hf)
      = some ((df.rows.filter (specKeep df)).map (specFeatureRow df),
          (df.rows.filter (specKeep df)).map (fun r => getCell r "risk")) := by
  have hRows : (setColWith (withLon (withLat df)) "hour" hf).rows
      = df.rows.map (fun r => rowSet (lonRowF (withLat df) (latRowF df r)) "hour"
          (hf (lonRowF (withLat df) (latRowF df r)))) := by
    show ((withLon (withLat df)).rows.map _) = _
    rw [rows_withLon, rows_withLat, List.map_map, List.map_map]
    rfl
  have hbr2 : "brightness" ∈ (setColWith (withLon (withLat df)) "hour" hf).cols :=
    (mem_cols_setColWith _ _ _ _).mpr
      (Or.inl (mem_cols_withLon_mono _ _ (mem_cols_withLat_mono _ _ hbr)))
  have hcf2 : "confidence" ∈ (setColWith (withLon (withLat df)) "hour" hf).cols :=
    (mem_cols_setColWith _ _ _ _).mpr
      (Or.inl (mem_cols_withLon_mono _ _ (mem_cols_withLat_mono _ _ hcf)))
  have hfrp2 : "frp" ∈ (setColWith (withLon (withLat df)) "hour" hf).cols :=
    (mem_cols_setColWith _ _ _ _).mpr
      (Or.inl (mem_cols_withLon_mono _ _ (mem_cols_withLat_mono _ _ hfrp)))
  have hrisk2 : "risk" ∈ (setColWith (withLon (withLat df)) "hour" hf).cols :=
    (mem_cols_setColWith _ _ _ _).mpr
      (Or.inl (mem_cols_withLon_mono _ _ (mem_cols_withLat_mono _ _ hrisk)))
  have hlat2 : "lat" ∈ (setColWith (withLon (withLat df)) "hour" hf).cols :=
    (mem_cols_setColWith _ _ _ _).mpr
      (Or.inl (mem_cols_withLon_mono _ _ (lat_mem_cols_withLat df)))
  have hlon2 : "lon" ∈ (setColWith (withLon (withLat df)) "hour" hf).cols :=
    (mem_cols_setColWith _ _ _ _).mpr (Or.inl (lon_mem_cols_withLon _))
  have hhour2 : "hour" ∈ (setColWith (withLon (withLat df)) "hour" hf).cols :=
    (mem_cols_setColWith _ _ _ _).mpr (Or.inr rfl)
  have hcols : ((featuresList ++ ["risk"]).all
      (fun c => decide (c ∈ (setColWith (withLon (withLat df)) "hour" hf).cols))) = true := by
    simp [featuresList, hbr2, hcf2, hfrp2, hlat2, hlon2, hhour2, hrisk2]
  have hcellBr : ∀ r, getCell (rowSet (lonRowF (withLat df) (latRowF df r)) "hour"
      (hf (lonRowF (withLat df) (latRowF df r)))) "brightness" = getCell r "brightness" :=
    fun r => by
      rw [getCell_rowSet_ne _ _ _ _ (by decide), getCell_lonRowF_ne _ _ _ (by decide),
        getCell_latRowF_ne _ _ _ (by decide)]
  have hcellCf : ∀ r, getCell (rowSet (lonRowF (withLat df) (latRowF df r)) "hour"
      (hf (lonRowF (withLat df) (latRowF df r)))) "confidence" = getCell r "confidence" :=
    fun r => by
      rw [getCell_rowSet_ne _ _ _ _ (by decide), getCell_lonRowF_ne _ _ _ (by decide),
        getCell_latRowF_ne _ _ _ (by decide)]
  have hcellFrp : ∀ r, getCell (rowSet (lonRowF (withLat df) (latRowF df r)) "hour"
      (hf (lonRowF (withLat df) (latRowF df r)))) "frp" = getCell r "frp" :=
    fun r => by
      rw [getCell_rowSet_ne _ _ _ _ (by decide), getCell_lonRowF_ne _ _ _ (by decide),
        getCell_latRowF_ne _ _ _ (by decide)]
  have hcellRisk : ∀ r, getCell (rowSet (lonRowF (withLat df) (latRowF df r)) "hour"
      (hf (lonRowF (withLat df) (latRowF df r)))) "risk" = getCell r "risk" :=
    fun r => by
      rw [getCell_rowSet_ne _ _ _ _ (by decide), getCell_lonRowF_ne _ _ _ (by decide),
        getCell_latRowF_ne _ _ _ (by decide)]
  have hcellLat : ∀ r, getCell (rowSet (lonRowF (withLat df) (latRowF df r)) "hour"
      (hf (lonRowF (withLat df) (latRowF df r)))) "lat" = specLatCell df r :=
    fun r => by
      rw [getCell_rowSet_ne _ _ _ _ (by decide), getCell_lonRowF_ne _ _ _ (by decide),
        getCell_latRowF_lat]
  have hcellLon : ∀ r, getCell (rowSet (lonRowF (withLat df) (latRowF df r)) "hour"
      (hf (lonRowF (withLat df) (latRowF df r)))) "lon" = specLonCell df r :=
    fun r => by
      rw [getCell_rowSet_ne _ _ _ _ (by decide), getCell_lonRowF_lon]
  have hcellHour : ∀ r ∈ df.rows, getCell (rowSet (lonRowF (withLat df) (latRowF df r)) "hour"
      (hf (lonRowF (withLat df) (latRowF df r)))) "hour" = specHourCell df r :=
    fun r hr => by
      rw [getCell_rowSet_self]
      exact hagree r hr
  unfold dropnaFit
  rw [if_pos hcols, hRows, filter_of_map]
  have hfc : df.rows.filter (fun r => (featuresList ++ ["risk"]).all
        (fun c => decide (getCell (rowSet (lonRowF (withLat df) (latRowF df r)) "hour"
          (hf (lonRowF (withLat df) (latRowF df r)))) c ≠ Cell.null)))
      = df.rows.filter (specKeep df) := by
    refine List.filter_congr (fun r hr => ?_)
    simp only [featuresList, specKeep, specFeatureRow, List.all_append, List.all_cons,
      List.all_nil, hcellBr r, hcellCf r, hcellFrp r, hcellRisk r, hcellLat r, hcellLon r,
      hcellHour r hr]
  rw [hfc]
  dsimp only
  rw [List.map_map, List.map_map]
  refine congrArg some (Prod.ext ?_ ?_)
  · refine List.map_congr_left (fun r hr => ?_)
    have hr0 : r ∈ df.rows := (List.mem_filter.mp hr).1
    simp only [Function.comp_def, featuresList, List.map_cons, List.map_nil, specFeatureRow,
      hcellBr r, hcellCf r, hcellFrp r, hcellLat r, hcellLon r, hcellHour r hr0]
  · refine List.map_congr_left (fun r hr => ?_)
    simp only [Function.comp_def, hcellRisk r]

/-- C8: for any training frame carrying the risk label and the three sensor
features, preparation never fails for missing coordinate columns (lat/lon are
copied from latitude/longitude or default to 0), the hour feature is in 0-23
and defaults to 0 without acq_datetime, exactly the rows with a null among
the six features or the label are dropped, and the fitted model is the
ensemble with 120 trees, depth 12, seed 42. -/
theorem c8_training_spec :
    ∀ df : Table, "risk" ∈ df.cols → "brightness" ∈ df.cols → "confidence" ∈ df.cols →
      "frp" ∈ df.cols →
      ("acq_datetime" ∈ df.cols → ∀ r ∈ df.rows,
        dtOrNullB (getCell r "acq_datetime") = true
        ∧ dtHourOK (getCell r "acq_datetime") = true) →
      ∃ X y, prepare_training_data df = some (X, y)
        ∧ train_risk_model df = some ⟨120, 12, 42, X, y⟩
        ∧ X = (df.rows.filter (specKeep df)).map (specFeatureRow df)
        ∧ y = (df.rows.filter (specKeep df)).map (fun r => getCell r "risk")
        ∧ (∀ v ∈ X, ∃ q : ℚ, v.get? 5 = some (Cell.num q) ∧ 0 ≤ q ∧ q ≤ 23) := by
  intro df hrisk hbr hcf hfrp hdt
  have hrange : ∀ v ∈ (df.rows.filter (specKeep df)).map (specFeatureRow df),
      ∃ q : ℚ, v.get? 5 = some (Cell.num q) ∧ 0 ≤ q ∧ q ≤ 23 := by
    intro v hv
    simp only [List.mem_map] at hv
    obtain ⟨r, hr, rfl⟩ := hv
    have hr0 : r ∈ df.rows := (List.mem_filter.mp hr).1
    have hkeep : specKeep df r = true := (List.mem_filter.mp hr).2
    have hne : specHourCell df r ≠ Cell.null := by
      have hmem : specHourCell df r ∈ (specFeatureRow df r ++ [getCell r "risk"]) := by
        simp [specFeatureRow]
      have h2 := List.all_eq_true.mp hkeep _ hmem
      simpa using h2
    have hget : (specFeatureRow df r).get? 5 = some (specHourCell df r) := rfl
    rw [hget]
    by_cases hacq : "acq_datetime" ∈ df.cols
    · rw [specHourCell, if_pos hacq] at hne ⊢
      have hdt2 := hdt hacq r hr0
      cases hcell : getCell r "acq_datetime" with
      | null =>
        rw [hcell] at hne
        exact absurd rfl hne
      | num q =>
        have h1 := hdt2.1
        rw [hcell] at h1
        simp [dtOrNullB] at h1
      | str s =>
        have h1 := hdt2.1
        rw [hcell] at h1
        simp [dtOrNullB] at h1
      | dt y2 m2 d2 hh mi =>
        refine ⟨(hh : ℚ), rfl, by positivity, ?_⟩
        have h2 := hdt2.2
        rw [hcell] at h2
        simp only [dtHourOK, decide_eq_true_eq] at h2
        exact_mod_cast h2
    · rw [specHourCell, if_neg hacq]
      exact ⟨0, rfl, le_refl 0, by norm_num⟩
  by_cases hacq : "acq_datetime" ∈ df.cols
  · have hacq2 : "acq_datetime" ∈ (withLon (withLat df)).cols := by
      rw [mem_cols_withLon_ne _ _ (by decide), mem_cols_withLat_ne _ _ (by decide)]
      exact hacq
    have hguard : ((withLon (withLat df)).rows.all
        (fun r => dtOrNullB (getCell r "acq_datetime"))) = true := by
      rw [rows_withLon, rows_withLat, List.map_map, List.all_eq_true]
      intro r2 hr2
      simp only [List.mem_map, Function.comp_def] at hr2
      obtain ⟨r, hr, rfl⟩ := hr2
      rw [getCell_lonRowF_ne _ _ _ (by decide), getCell_latRowF_ne _ _ _ (by decide)]
      exact (hdt hacq r hr).1
    have hprep : prepare_training_data df
        = some ((df.rows.filter (specKeep df)).map (specFeatureRow df),
            (df.rows.filter (specKeep df)).map (fun r => getCell r "risk")) := by
      unfold prepare_training_data
      rw [if_pos hacq2, if_pos hguard]
      refine dropnaFit_prep df _ hrisk hbr hcf hfrp (fun r hr => ?_)
      rw [getCell_lonRowF_ne _ _ _ (by decide), getCell_latRowF_ne _ _ _ (by decide),
        specHourCell, if_pos hacq]
    refine ⟨_, _, hprep, ?_, rfl, rfl, hrange⟩
    unfold train_risk_model
    rw [hprep]
    rfl
  · have hacq2 : "acq_datetime" ∉ (withLon (withLat df)).cols := by
      rw [mem_cols_withLon_ne _ _ (by decide), mem_cols_withLat_ne _ _ (by decide)]
      exact hacq
    have hprep : prepare_training_data df
        = some ((df.rows.filter (specKeep df)).map (specFeatureRow df),
            (df.rows.filter (specKeep df)).map (fun r => getCell r "risk")) := by
      unfold prepare_training_data
      rw [if_neg hacq2]
      refine dropnaFit_prep df _ hrisk hbr hcf hfrp (fun r hr => ?_)
      rw [specHourCell, if_neg hacq]
    refine ⟨_, _, hprep, ?_, rfl, rfl, hrange⟩
    unfold train_risk_model
    rw [hprep]
    rfl

/-- Witness for C8 at a concrete one-row frame lacking every coordinate
column and the timestamp column. -/
theorem c8_witness :
    ∃ X y, prepare_training_data
        { cols := ["brightness", "confidence", "frp", "risk"],
          rows := [[("brightness", Cell.num 300), ("confidence", Cell.num 80),
                    ("frp", Cell.num 12), ("risk", Cell.num 2)]] } = some (X, y)
      ∧ train_risk_model
          { cols := ["brightness", "confidence", "frp", "risk"],
            rows := [[("brightness", Cell.num 300), ("confidence", Cell.num 80),
                      ("frp", Cell.num 12), ("risk", Cell.num 2)]] }
        = some ⟨120, 12, 42, X, y⟩
      ∧ X = (({ cols := ["brightness", "confidence", "frp", "risk"],
                rows := [[("brightness", Cell.num 300), ("confidence", Cell.num 80),
                          ("frp", Cell.num 12), ("risk", Cell.num 2)]] } : Table).rows.filter
          (specKeep { cols := ["brightness", "confidence", "frp", "risk"],
                      rows := [[("brightness", Cell.num 300), ("confidence", Cell.num 80),
                                ("frp", Cell.num 12), ("risk", Cell.num 2)]] })).map
          (specFeatureRow { cols := ["brightness", "confidence", "frp", "risk"],
                            rows := [[("brightness", Cell.num 300), ("confidence", Cell.num 80),
                                      ("frp", Cell.num 12), ("risk", Cell.num 2)]] })
      ∧ y = (({ cols := ["brightness", "confidence", "frp", "risk"],
                rows := [[("brightness", Cell.num 300), ("confidence", Cell.num 80),
                          ("frp", Cell.num 12), ("risk", Cell.num 2)]] } : Table).rows.filter
          (specKeep { cols := ["brightness", "confidence", "frp", "risk"],
                      rows := [[("brightness", Cell.num 300), ("confidence", Cell.num 80),
                                ("frp", Cell.num 12), ("risk", Cell.num 2)]] })).map
          (fun r => getCell r "risk")
      ∧ (∀ v ∈ X, ∃ q : ℚ, v.get? 5 = some (Cell.num q) ∧ 0 ≤ q ∧ q ≤ 23) :=
  c8_training_spec _ (by decide) (by decide) (by decide) (by decide)
    (fun h => absurd h (by decide))
